import Mathlib

/-!
# FreightParse API — verification of the spec claims against `src/main.py`

This file gives a shallow embedding, in Lean 4, of the parts of
`src/main.py` that the frozen claims talk about:

* the response-normalization step of `parse_document` (markdown-fence
  stripping, `json.loads`, first-`{`-to-last-`}` recovery);
* the pydantic response models (`BOLResponse`, `FreightInvoiceResponse`,
  `PackingListResponse`) and their validation behaviour;
* the in-memory sliding-window rate limiter `check_rate_limit`;
* the upload pipeline `extract_text_from_upload` (size ceiling, content-type
  dispatch, PDF page/table flattening, vision fallback, 415);
* the authentication dependency `verify_api_key` and the construction of
  `INTERNAL_API_KEYS`.

Python strings are modelled as `List Char` (with `String` at some API
boundaries), Python floats/timestamps as `ℚ`, byte payloads as
`List UInt8`.  Library calls from the environment (the `json` module,
`pdfplumber`, the model client) are modelled as follows: `json.loads` is
given as an executable recursive-descent reader of the JSON value grammar
(decimal numbers without exponent forms, string escapes without the
`\uXXXX` form — the fragments exercised by the claims); `pdfplumber`'s
output is a `PDFDoc` structure provided by an oracle parameter; the model
call is represented by the action value it would trigger.
-/

namespace FreightParse

/-! ## Characters, whitespace, small Python string helpers -/

/-- Whitespace accepted by the JSON grammar (`json.loads`). -/
def jsonWs (c : Char) : Bool :=
  c == ' ' || c == '\t' || c == '\n' || c == '\r'

/-- Whitespace stripped by Python `str.strip()` (ASCII part). -/
def pyWs (c : Char) : Bool :=
  jsonWs c || c == '\x0b' || c == '\x0c'

/-- Skip leading JSON whitespace. -/
def skipWs (cs : List Char) : List Char := cs.dropWhile jsonWs

/-- Python `str.strip()`. -/
def pyStrip (cs : List Char) : List Char :=
  ((cs.dropWhile pyWs).reverse.dropWhile pyWs).reverse

/-- Python `str.split("\n")`. -/
def splitNL : List Char → List (List Char)
  | [] => [[]]
  | c :: rest =>
    if c == '\n' then [] :: splitNL rest
    else
      match splitNL rest with
      | [] => [[c]]
      | l :: ls => (c :: l) :: ls

/-- Python `"\n".join(lines)`. -/
def joinNL : List (List Char) → List Char
  | [] => []
  | [l] => l
  | l :: ls => l ++ '\n' :: joinNL ls

/-- `cleaned.startswith("```")` on a character list. -/
def isFence (cs : List Char) : Bool :=
  List.isPrefixOf ['`', '`', '`'] cs

/-- Python `str.find(c)`: index of the first occurrence, `-1` if absent. -/
def pyFind (c : Char) (cs : List Char) : Int :=
  match cs.findIdx? (· == c) with
  | some i => (i : Int)
  | none => -1

/-- Python `str.rfind(c)`: index of the last occurrence, `-1` if absent. -/
def pyRFind (c : Char) (cs : List Char) : Int :=
  match cs.reverse.findIdx? (· == c) with
  | some i => (cs.length : Int) - 1 - (i : Int)
  | none => -1

/-- Python slice `s[a:b]` for `0 ≤ a ≤ b`. -/
def pySlice (cs : List Char) (a b : Int) : List Char :=
  (cs.drop a.toNat).take (b - a).toNat

/-! ## JSON values

`Json` models the values `json.loads` can return.  Numbers are kept in
decimal form: `Json.num m e` denotes the value `m / 10 ^ e`. -/

inductive Json where
  | null : Json
  | bool (b : Bool) : Json
  | num (m : Int) (e : Nat) : Json
  | str (s : String) : Json
  | arr (xs : List Json) : Json
  | obj (kvs : List (String × Json)) : Json

/-- The rational value of a JSON number in decimal form. -/
def numVal (m : Int) (e : Nat) : ℚ := (m : ℚ) / 10 ^ e

/-! ## Digits and decimal numerals -/

/-- The decimal digit characters. -/
def digitChar : Nat → Char
  | 0 => '0' | 1 => '1' | 2 => '2' | 3 => '3' | 4 => '4'
  | 5 => '5' | 6 => '6' | 7 => '7' | 8 => '8' | _ => '9'

/-- Numeric value of a digit character. -/
def digitVal (c : Char) : Nat := c.toNat - '0'.toNat

/-- Decimal digits of a natural number, most significant first, no leading
zeros (`natDigits 0 = ['0']`). -/
def natDigits (n : Nat) : List Char :=
  if h : n < 10 then [digitChar n]
  else natDigits (n / 10) ++ [digitChar (n % 10)]
termination_by n
decreasing_by
  exact Nat.div_lt_self (by omega) (by omega)

/-- Value of a digit string (left fold, as a positional numeral). -/
def digitsVal (ds : List Char) : Nat :=
  ds.foldl (fun a c => 10 * a + digitVal c) 0

/-! ## The string reader (`json.loads` string bodies) -/

/-- Unescape the character following a backslash in a JSON string
(`\uXXXX` escapes are not modelled). -/
def unesc : Char → Option Char
  | '/' => some '/'
  | 'n' => some '\n'
  | '"' => some '"'
  | '\\' => some '\\'
  | 't' => some '\t'
  | 'b' => some '\x08'
  | 'r' => some '\r'
  | 'f' => some '\x0c'
  | _ => none

mutual

/-- Read a JSON string body up to (and consuming) the closing quote,
returning the decoded characters and the remaining input. -/
def readStr : List Char → Option (List Char × List Char)
  | [] => none
  | c :: rest =>
    if c == '"' then some ([], rest)
    else if c == '\\' then readStrEsc rest
    else
      match readStr rest with
      | some (cs, r) => some (c :: cs, r)
      | none => none

/-- Read the remainder of a string body after a backslash. -/
def readStrEsc : List Char → Option (List Char × List Char)
  | [] => none
  | e :: rest2 =>
    match unesc e with
    | some u =>
      match readStr rest2 with
      | some (cs, r) => some (u :: cs, r)
      | none => none
    | none => none

end

/-! ## The number reader -/

/-- Apply an optional leading minus sign. -/
def applySign (neg : Bool) (n : Nat) : Int :=
  if neg then -(n : Int) else (n : Int)

/-- Read a JSON number (integer part, optional fraction; exponent forms are
not modelled).  Leading zeros are rejected as in the JSON grammar. -/
def readNum (s : List Char) : Option (Json × List Char) :=
  let neg := s.head? == some '-'
  let s1 := if neg then s.tail else s
  let ds := s1.takeWhile Char.isDigit
  let s2 := s1.dropWhile Char.isDigit
  if ds = [] then none
  else if 1 < ds.length ∧ ds.head? = some '0' then none
  else if s2.head? == some '.' then
    let s3 := s2.tail
    let fs := s3.takeWhile Char.isDigit
    let s4 := s3.dropWhile Char.isDigit
    if fs = [] then none
    else some (.num (applySign neg (digitsVal (ds ++ fs))) fs.length, s4)
  else some (.num (applySign neg (digitsVal ds)) 0, s2)

/-! ## The value reader -/

mutual

/-- Fuel-indexed reader for a JSON value.  `readVal` is called on input
whose leading whitespace has been skipped; it consumes one value and
returns the rest of the input. -/
def readVal : Nat → List Char → Option (Json × List Char)
  | 0, _ => none
  | f + 1, s =>
    if List.isPrefixOf ['n', 'u', 'l', 'l'] s then some (.null, s.drop 4)
    else if List.isPrefixOf ['t', 'r', 'u', 'e'] s then some (.bool true, s.drop 4)
    else if List.isPrefixOf ['f', 'a', 'l', 's', 'e'] s then some (.bool false, s.drop 5)
    else
      match s with
      | [] => none
      | c :: r =>
        if c == '"' then
          match readStr r with
          | some (cs, rest) => some (.str (String.mk cs), rest)
          | none => none
        else if c == '[' then
          let r' := skipWs r
          if r'.head? == some ']' then some (.arr [], r'.tail)
          else
            match readArrItems f r' with
            | some (xs, rest) => some (.arr xs, rest)
            | none => none
        else if c == '{' then
          let r' := skipWs r
          if r'.head? == some '}' then some (.obj [], r'.tail)
          else
            match readObjItems f r' with
            | some (kvs, rest) => some (.obj kvs, rest)
            | none => none
        else if c.isDigit || c == '-' then readNum s
        else none

def readArrItems : Nat → List Char → Option (List Json × List Char)
  | 0, _ => none
  | f + 1, s =>
    match readVal f s with
    | none => none
    | some (v, r) =>
      let r' := skipWs r
      if r'.head? == some ',' then
        match readArrItems f (skipWs r'.tail) with
        | some (vs, r3) => some (v :: vs, r3)
        | none => none
      else if r'.head? == some ']' then some ([v], r'.tail)
      else none

def readObjItems : Nat → List Char → Option (List (String × Json) × List Char)
  | 0, _ => none
  | f + 1, s =>
    match s with
    | [] => none
    | c :: r =>
      if c == '"' then
        match readStr r with
        | none => none
        | some (k, r1) =>
          let r2 := skipWs r1
          if r2.head? == some ':' then
            match readVal f (skipWs r2.tail) with
            | none => none
            | some (v, r3) =>
              let r4 := skipWs r3
              if r4.head? == some ',' then
                match readObjItems f (skipWs r4.tail) with
                | some (kvs, r5) => some ((String.mk k, v) :: kvs, r5)
                | none => none
              else if r4.head? == some '}' then some ([(String.mk k, v)], r4.tail)
              else none
          else none
      else none

end

/-- `json.loads`: skip surrounding whitespace, read exactly one value,
fail if anything but whitespace remains. -/
def jsonLoads (cs : List Char) : Option Json :=
  match readVal (cs.length + 1) (skipWs cs) with
  | some (j, r) => if skipWs r = [] then some j else none
  | none => none

/-! ## A canonical serialization

`render` is a compact serialization of a `Json` value (single line, no
spaces, newlines inside strings escaped), used to state the
normalizer round-trip claims. -/

/-- Escape one character of a JSON string. -/
def escChar (c : Char) : List Char :=
  if c == '"' then ['\\', '"']
  else if c == '\\' then ['\\', '\\']
  else if c == '\n' then ['\\', 'n']
  else [c]

/-- Escape a whole string body. -/
def escBody (cs : List Char) : List Char :=
  cs.foldr (fun c acc => escChar c ++ acc) []

/-- Serialize a string with quotes. -/
def renderStr (cs : List Char) : List Char :=
  '"' :: escBody cs ++ ['"']

/-- The digits of `n` padded on the left with zeros to at least `e + 1`
digits, so that a decimal point can be placed `e` digits from the right. -/
def padDigits (n e : Nat) : List Char :=
  let ds := natDigits n
  if ds.length ≤ e then List.replicate (e + 1 - ds.length) '0' ++ ds else ds

/-- Serialize a decimal number `m / 10 ^ e`. -/
def renderNum (m : Int) (e : Nat) : List Char :=
  let sign : List Char := if m < 0 then ['-'] else []
  let ds := padDigits m.natAbs e
  sign ++ (if e = 0 then ds else ds.take (ds.length - e) ++ '.' :: ds.drop (ds.length - e))

mutual

/-- Compact serialization of a JSON value. -/
def render : Json → List Char
  | .null => ['n'] ++ ['u', 'l', 'l']
  | .bool true => ['t'] ++ ['r', 'u', 'e']
  | .bool false => ['f'] ++ ['a', 'l', 's', 'e']
  | .num m e => renderNum m e
  | .str s => renderStr s.data
  | .arr xs => '[' :: renderItems xs ++ [']']
  | .obj kvs => '{' :: renderPairs kvs ++ ['}']

/-- Serialize the comma-separated items of an array. -/
def renderItems : List Json → List Char
  | [] => []
  | [x] => render x
  | x :: y :: xs => render x ++ ',' :: renderItems (y :: xs)

/-- Serialize the comma-separated `"key":value` pairs of an object. -/
def renderPairs : List (String × Json) → List Char
  | [] => []
  | [(k, v)] => renderStr k.data ++ ':' :: render v
  | (k, v) :: p :: kvs => renderStr k.data ++ ':' :: render v ++ ',' :: renderPairs (p :: kvs)

end

/-! ## The response normalizer of `parse_document` (src/main.py:474-493)

`normalizeReply` models what `parse_document` does to the model's raw
reply after `call_claude` returns: strip, drop markdown-fence lines,
`json.loads`, and on failure the first-`{`-to-last-`}` recovery.
`NormResult.jsonDecodeError` records the case in which the recovery
substring exists but fails to parse: the `json.loads` call on line 489
runs inside the `except json.JSONDecodeError:` handler, so the
`JSONDecodeError` it raises propagates out of `parse_document` uncaught
(it is not converted to the `HTTPException` with status 502 raised on
line 490). -/

inductive NormResult where
  | ok (j : Json) : NormResult
  | backendError502 : NormResult
  | jsonDecodeError : NormResult

/-- Normalization of the raw model reply in `parse_document`. -/
def normalizeReply (raw : List Char) : NormResult :=
  let cleaned := pyStrip raw
  let cleaned :=
    if isFence cleaned then
      joinNL ((splitNL cleaned).filter (fun l => !(isFence (pyStrip l))))
    else cleaned
  match jsonLoads cleaned with
  | some j => .ok j
  | none =>
    let start := pyFind '{' cleaned
    let stop := pyRFind '}' cleaned + 1
    if 0 ≤ start ∧ start < stop then
      match jsonLoads (pySlice cleaned start stop) with
      | some j => .ok j
      | none => .jsonDecodeError
    else .backendError502

/-! ## Sizes and side conditions used by the round-trip statements -/

mutual

/-- A weight on JSON values that bounds the reader fuel they need. -/
def nodes : Json → Nat
  | .null => 1
  | .bool _ => 1
  | .num _ _ => 1
  | .str _ => 1
  | .arr xs => 2 + nodesList xs
  | .obj kvs => 2 + nodesPairs kvs

/-- Total weight of a list of array items. -/
def nodesList : List Json → Nat
  | [] => 0
  | x :: xs => nodes x + nodesList xs

/-- Total weight of the values of an object. -/
def nodesPairs : List (String × Json) → Nat
  | [] => 0
  | (_, v) :: kvs => nodes v + nodesPairs kvs

end

/-- The input following a rendered number must not begin with a digit or a
decimal point, otherwise the greedy number reader would consume it. -/
def numSafeB : List Char → Bool
  | [] => true
  | c :: _ => !c.isDigit && !(c == '.')

/-- Whether a JSON value is a number. -/
def Json.isNumC : Json → Bool
  | .num _ _ => true
  | _ => false

/-- Characters allowed in the surrounding prose of claim C2(c): everything
except braces, brackets, quotes, backticks, digits and the minus sign —
ordinary running text. -/
def proseChar (c : Char) : Bool :=
  !(c == '{' || c == '}' || c == '[' || c == ']' || c == '"' || c == '`' ||
    c == '-' || c.isDigit)

/-! ## The pydantic response models (src/main.py:135-244)

The three response models are embedded as Lean structures together with
validators that model pydantic construction `Model(**data)` in its default
lax mode: absent optional fields take their declared defaults, `null` is
accepted for `Optional[...]` fields, numeric strings are coerced to
numbers, floats are accepted for `int` fields only when integral, and any
other shape mismatch fails the whole construction.  Validation failure is
an `Except.error`; no partially populated record can be produced. -/

/-- pydantic `BOLParty`. -/
structure BOLParty where
  name : Option String
  address : Option String
  contact : Option String

/-- pydantic `BOLContainer`. -/
structure BOLContainer where
  number : Option String
  size : Option String
  type : Option String
  seal_number : Option String
  weight_kg : Option ℚ

/-- pydantic `BOLResponse`. -/
structure BOLResponse where
  bol_number : Option String
  booking_number : Option String
  shipper : Option BOLParty
  consignee : Option BOLParty
  notify_party : Option BOLParty
  carrier : Option String
  vessel_name : Option String
  voyage_number : Option String
  port_of_loading : Option String
  port_of_discharge : Option String
  place_of_delivery : Option String
  date_of_issue : Option String
  shipped_on_board_date : Option String
  containers : List BOLContainer
  commodity_description : Option String
  gross_weight_kg : Option ℚ
  number_of_packages : Option Int
  package_type : Option String
  freight_terms : Option String
  hs_codes : List String
  confidence : ℚ
  warnings : List String

/-- pydantic `InvoiceLineItem` (`description` is required). -/
structure InvoiceLineItem where
  description : String
  charge_type : Option String
  amount : Option ℚ
  currency : Option String
  reference : Option String

/-- pydantic `FreightInvoiceResponse`. -/
structure FreightInvoiceResponse where
  invoice_number : Option String
  invoice_date : Option String
  due_date : Option String
  vendor_name : Option String
  vendor_address : Option String
  bill_to_name : Option String
  bill_to_address : Option String
  bol_references : List String
  container_references : List String
  po_references : List String
  line_items : List InvoiceLineItem
  subtotal : Option ℚ
  tax : Option ℚ
  total : Option ℚ
  currency : Option String
  payment_terms : Option String
  charge_breakdown : Option (List (String × Json))
  confidence : ℚ
  warnings : List String

/-- pydantic `PackingListItem` (`description` is required). -/
structure PackingListItem where
  item_number : Option String
  description : String
  quantity : Option ℚ
  unit : Option String
  net_weight_kg : Option ℚ
  gross_weight_kg : Option ℚ
  dimensions : Option String
  hs_code : Option String
  country_of_origin : Option String
  carton_numbers : Option String

/-- pydantic `PackingListResponse`. -/
structure PackingListResponse where
  packing_list_number : Option String
  date : Option String
  shipper : Option String
  consignee : Option String
  po_references : List String
  invoice_references : List String
  items : List PackingListItem
  total_packages : Option Int
  total_gross_weight_kg : Option ℚ
  total_net_weight_kg : Option ℚ
  total_volume_cbm : Option ℚ
  confidence : ℚ
  warnings : List String

/-! ## Field validators (pydantic lax mode) -/

/-- Dictionary field access on a parsed JSON object; later duplicate keys
win, as when `json.loads` builds a Python `dict`. -/
def jGet (kvs : List (String × Json)) (k : String) : Option Json :=
  kvs.reverse.lookup k

/-- Python `float(s)` as used by pydantic lax string-to-float coercion:
surrounding whitespace is stripped, an optional sign, decimal digits with
an optional fractional part (exponent forms, `inf`/`nan` and underscore
separators are not modelled). -/
def floatOfStr (s : String) : Option ℚ :=
  let cs := pyStrip s.data
  let sgn : ℚ × List Char :=
    if cs.head? == some '-' then (-1, cs.tail)
    else if cs.head? == some '+' then (1, cs.tail)
    else (1, cs)
  let ip := sgn.2.takeWhile Char.isDigit
  let rest1 := sgn.2.dropWhile Char.isDigit
  if rest1 = [] then
    if ip = [] then none else some (sgn.1 * (digitsVal ip : ℚ))
  else if rest1.head? == some '.' then
    let fp := rest1.tail.takeWhile Char.isDigit
    let rest2 := rest1.tail.dropWhile Char.isDigit
    if rest2 = [] ∧ ¬(ip = [] ∧ fp = []) then
      some (sgn.1 * (digitsVal (ip ++ fp) : ℚ) / 10 ^ fp.length)
    else none
  else none

/-- pydantic lax string-to-int coercion: optional sign and decimal digits. -/
def intOfStr (s : String) : Option Int :=
  let cs := pyStrip s.data
  let sgn : Bool × List Char :=
    if cs.head? == some '-' then (true, cs.tail)
    else if cs.head? == some '+' then (false, cs.tail)
    else (false, cs)
  if sgn.2 ≠ [] ∧ sgn.2.all Char.isDigit then some (applySign sgn.1 (digitsVal sgn.2))
  else none

/-- Validator for `Optional[str] = None` fields. -/
def vOptStr : Option Json → Except String (Option String)
  | none => .ok none
  | some .null => .ok none
  | some (.str s) => .ok (some s)
  | some _ => .error "value is not a valid string"

/-- Validator for required `str` fields (absent or `null` fails). -/
def vStrReq : Option Json → Except String String
  | some (.str s) => .ok s
  | some _ => .error "value is not a valid string"
  | none => .error "field required"

/-- Validator for `Optional[float] = None` fields. -/
def vOptFloat : Option Json → Except String (Option ℚ)
  | none => .ok none
  | some .null => .ok none
  | some (.num m e) => .ok (some (numVal m e))
  | some (.str s) =>
    match floatOfStr s with
    | some q => .ok (some q)
    | none => .error "value is not a valid float"
  | some _ => .error "value is not a valid float"

/-- Validator for `float` fields with a declared default (e.g.
`confidence: float = Field(0.0)`): the default applies only when the field
is absent; a present value must be numeric and is taken as-is. -/
def vFloatDefault (d : ℚ) : Option Json → Except String ℚ
  | none => .ok d
  | some (.num m e) => .ok (numVal m e)
  | some (.str s) =>
    match floatOfStr s with
    | some q => .ok q
    | none => .error "value is not a valid float"
  | some _ => .error "value is not a valid float"

/-- Validator for `Optional[int] = None` fields: integral floats are
accepted, non-integral ones rejected. -/
def vOptInt : Option Json → Except String (Option Int)
  | none => .ok none
  | some .null => .ok none
  | some (.num m e) =>
    if ((10 : Int) ^ e) ∣ m then .ok (some (m / (10 : Int) ^ e))
    else .error "value is not a valid integer"
  | some (.str s) =>
    match intOfStr s with
    | some n => .ok (some n)
    | none => .error "value is not a valid integer"
  | some _ => .error "value is not a valid integer"

/-- Validate every element of a JSON array. -/
def vElems (f : Json → Except String α) : List Json → Except String (List α)
  | [] => .ok []
  | x :: xs =>
    match f x with
    | .error e => .error e
    | .ok a =>
      match vElems f xs with
      | .error e => .error e
      | .ok ys => .ok (a :: ys)

/-- Validator for `list[...] = []` fields: absent means empty, a present
value must be an array of valid elements (`null` is rejected). -/
def vListOf (f : Json → Except String α) : Option Json → Except String (List α)
  | none => .ok []
  | some (.arr xs) => vElems f xs
  | some _ => .error "value is not a valid list"

/-- Element validator for `list[str]`. -/
def vStrElem : Json → Except String String
  | .str s => .ok s
  | _ => .error "value is not a valid string"

/-- Validator for `list[str] = []` fields. -/
def vListStr : Option Json → Except String (List String) :=
  vListOf vStrElem

/-- Validator for `Optional[dict]` fields (`charge_breakdown`). -/
def vOptDict : Option Json → Except String (Option (List (String × Json)))
  | none => .ok none
  | some .null => .ok none
  | some (.obj kvs) => .ok (some kvs)
  | some _ => .error "value is not a valid dict"

/-- Nested-model validator for `BOLParty`. -/
def vBOLParty (j : Json) : Except String BOLParty :=
  match j with
  | .obj kvs => do
    let name ← vOptStr (jGet kvs "name")
    let address ← vOptStr (jGet kvs "address")
    let contact ← vOptStr (jGet kvs "contact")
    pure { name := name, address := address, contact := contact }
  | _ => .error "value is not a valid BOLParty"

/-- Validator for `Optional[BOLParty] = None` fields. -/
def vOptParty : Option Json → Except String (Option BOLParty)
  | none => .ok none
  | some .null => .ok none
  | some j =>
    match vBOLParty j with
    | .ok p => .ok (some p)
    | .error e => .error e

/-- Nested-model validator for `BOLContainer`. -/
def vBOLContainer (j : Json) : Except String BOLContainer :=
  match j with
  | .obj kvs => do
    let number ← vOptStr (jGet kvs "number")
    let size ← vOptStr (jGet kvs "size")
    let type ← vOptStr (jGet kvs "type")
    let seal_number ← vOptStr (jGet kvs "seal_number")
    let weight_kg ← vOptFloat (jGet kvs "weight_kg")
    pure { number := number, size := size, type := type,
           seal_number := seal_number, weight_kg := weight_kg }
  | _ => .error "value is not a valid BOLContainer"

/-- Nested-model validator for `InvoiceLineItem`. -/
def vInvoiceLineItem (j : Json) : Except String InvoiceLineItem :=
  match j with
  | .obj kvs => do
    let description ← vStrReq (jGet kvs "description")
    let charge_type ← vOptStr (jGet kvs "charge_type")
    let amount ← vOptFloat (jGet kvs "amount")
    let currency ← vOptStr (jGet kvs "currency")
    let reference ← vOptStr (jGet kvs "reference")
    pure { description := description, charge_type := charge_type,
           amount := amount, currency := currency, reference := reference }
  | _ => .error "value is not a valid InvoiceLineItem"

/-- Nested-model validator for `PackingListItem`. -/
def vPackingListItem (j : Json) : Except String PackingListItem :=
  match j with
  | .obj kvs => do
    let item_number ← vOptStr (jGet kvs "item_number")
    let description ← vStrReq (jGet kvs "description")
    let quantity ← vOptFloat (jGet kvs "quantity")
    let unit ← vOptStr (jGet kvs "unit")
    let net_weight_kg ← vOptFloat (jGet kvs "net_weight_kg")
    let gross_weight_kg ← vOptFloat (jGet kvs "gross_weight_kg")
    let dimensions ← vOptStr (jGet kvs "dimensions")
    let hs_code ← vOptStr (jGet kvs "hs_code")
    let country_of_origin ← vOptStr (jGet kvs "country_of_origin")
    let carton_numbers ← vOptStr (jGet kvs "carton_numbers")
    pure { item_number := item_number, description := description,
           quantity := quantity, unit := unit,
           net_weight_kg := net_weight_kg, gross_weight_kg := gross_weight_kg,
           dimensions := dimensions, hs_code := hs_code,
           country_of_origin := country_of_origin,
           carton_numbers := carton_numbers }
  | _ => .error "value is not a valid PackingListItem"

/-- Construction `BOLResponse(**data)` (src/main.py:526). -/
def BOLResponse.validate (j : Json) : Except String BOLResponse :=
  match j with
  | .obj kvs => do
    let bol_number ← vOptStr (jGet kvs "bol_number")
    let booking_number ← vOptStr (jGet kvs "booking_number")
    let shipper ← vOptParty (jGet kvs "shipper")
    let consignee ← vOptParty (jGet kvs "consignee")
    let notify_party ← vOptParty (jGet kvs "notify_party")
    let carrier ← vOptStr (jGet kvs "carrier")
    let vessel_name ← vOptStr (jGet kvs "vessel_name")
    let voyage_number ← vOptStr (jGet kvs "voyage_number")
    let port_of_loading ← vOptStr (jGet kvs "port_of_loading")
    let port_of_discharge ← vOptStr (jGet kvs "port_of_discharge")
    let place_of_delivery ← vOptStr (jGet kvs "place_of_delivery")
    let date_of_issue ← vOptStr (jGet kvs "date_of_issue")
    let shipped_on_board_date ← vOptStr (jGet kvs "shipped_on_board_date")
    let containers ← vListOf vBOLContainer (jGet kvs "containers")
    let commodity_description ← vOptStr (jGet kvs "commodity_description")
    let gross_weight_kg ← vOptFloat (jGet kvs "gross_weight_kg")
    let number_of_packages ← vOptInt (jGet kvs "number_of_packages")
    let package_type ← vOptStr (jGet kvs "package_type")
    let freight_terms ← vOptStr (jGet kvs "freight_terms")
    let hs_codes ← vListStr (jGet kvs "hs_codes")
    let confidence ← vFloatDefault 0 (jGet kvs "confidence")
    let warnings ← vListStr (jGet kvs "warnings")
    pure { bol_number := bol_number, booking_number := booking_number,
           shipper := shipper, consignee := consignee,
           notify_party := notify_party, carrier := carrier,
           vessel_name := vessel_name, voyage_number := voyage_number,
           port_of_loading := port_of_loading,
           port_of_discharge := port_of_discharge,
           place_of_delivery := place_of_delivery,
           date_of_issue := date_of_issue,
           shipped_on_board_date := shipped_on_board_date,
           containers := containers,
           commodity_description := commodity_description,
           gross_weight_kg := gross_weight_kg,
           number_of_packages := number_of_packages,
           package_type := package_type, freight_terms := freight_terms,
           hs_codes := hs_codes, confidence := confidence,
           warnings := warnings }
  | _ => .error "response payload is not a JSON object"

/-- Construction `FreightInvoiceResponse(**data)` (src/main.py:533). -/
def FreightInvoiceResponse.validate (j : Json) : Except String FreightInvoiceResponse :=
  match j with
  | .obj kvs => do
    let invoice_number ← vOptStr (jGet kvs "invoice_number")
    let invoice_date ← vOptStr (jGet kvs "invoice_date")
    let due_date ← vOptStr (jGet kvs "due_date")
    let vendor_name ← vOptStr (jGet kvs "vendor_name")
    let vendor_address ← vOptStr (jGet kvs "vendor_address")
    let bill_to_name ← vOptStr (jGet kvs "bill_to_name")
    let bill_to_address ← vOptStr (jGet kvs "bill_to_address")
    let bol_references ← vListStr (jGet kvs "bol_references")
    let container_references ← vListStr (jGet kvs "container_references")
    let po_references ← vListStr (jGet kvs "po_references")
    let line_items ← vListOf vInvoiceLineItem (jGet kvs "line_items")
    let subtotal ← vOptFloat (jGet kvs "subtotal")
    let tax ← vOptFloat (jGet kvs "tax")
    let total ← vOptFloat (jGet kvs "total")
    let currency ← vOptStr (jGet kvs "currency")
    let payment_terms ← vOptStr (jGet kvs "payment_terms")
    let charge_breakdown ← vOptDict (jGet kvs "charge_breakdown")
    let confidence ← vFloatDefault 0 (jGet kvs "confidence")
    let warnings ← vListStr (jGet kvs "warnings")
    pure { invoice_number := invoice_number, invoice_date := invoice_date,
           due_date := due_date, vendor_name := vendor_name,
           vendor_address := vendor_address, bill_to_name := bill_to_name,
           bill_to_address := bill_to_address,
           bol_references := bol_references,
           container_references := container_references,
           po_references := po_references, line_items := line_items,
           subtotal := subtotal, tax := tax, total := total,
           currency := currency, payment_terms := payment_terms,
           charge_breakdown := charge_breakdown, confidence := confidence,
           warnings := warnings }
  | _ => .error "response payload is not a JSON object"

/-- Construction `PackingListResponse(**data)` (src/main.py:540). -/
def PackingListResponse.validate (j : Json) : Except String PackingListResponse :=
  match j with
  | .obj kvs => do
    let packing_list_number ← vOptStr (jGet kvs "packing_list_number")
    let date ← vOptStr (jGet kvs "date")
    let shipper ← vOptStr (jGet kvs "shipper")
    let consignee ← vOptStr (jGet kvs "consignee")
    let po_references ← vListStr (jGet kvs "po_references")
    let invoice_references ← vListStr (jGet kvs "invoice_references")
    let items ← vListOf vPackingListItem (jGet kvs "items")
    let total_packages ← vOptInt (jGet kvs "total_packages")
    let total_gross_weight_kg ← vOptFloat (jGet kvs "total_gross_weight_kg")
    let total_net_weight_kg ← vOptFloat (jGet kvs "total_net_weight_kg")
    let total_volume_cbm ← vOptFloat (jGet kvs "total_volume_cbm")
    let confidence ← vFloatDefault 0 (jGet kvs "confidence")
    let warnings ← vListStr (jGet kvs "warnings")
    pure { packing_list_number := packing_list_number, date := date,
           shipper := shipper, consignee := consignee,
           po_references := po_references,
           invoice_references := invoice_references, items := items,
           total_packages := total_packages,
           total_gross_weight_kg := total_gross_weight_kg,
           total_net_weight_kg := total_net_weight_kg,
           total_volume_cbm := total_volume_cbm, confidence := confidence,
           warnings := warnings }
  | _ => .error "response payload is not a JSON object"

/-! ## HTTP errors -/

/-- An `HTTPException(status_code, detail)`. -/
structure HTTPError where
  status : Nat
  detail : String
  deriving DecidableEq

/-! ## The rate limiter (src/main.py:82-96)

`rate_store` is modelled as an association list from keys to timestamp
lists; `check_rate_limit` returns the outcome together with the updated
store.  Note that the pruning write-back (`hits[:] = ...`) happens even
when the request is rejected, while the `append` happens only on
success. -/

/-- The `rate_store` dictionary. -/
abbrev RateStore := List (String × List ℚ)

/-- `rate_store.setdefault(key, [])` read. -/
def storeGet (st : RateStore) (k : String) : List ℚ :=
  (st.lookup k).getD []

/-- Write a key's timestamp list back into the store. -/
def storeSet (st : RateStore) (k : String) (v : List ℚ) : RateStore :=
  match st with
  | [] => [(k, v)]
  | (k', v') :: rest => if k' == k then (k, v) :: rest else (k', v') :: storeSet rest k v

/-- `check_rate_limit(key)` at time `now`, with configured ceiling `limit`
(`RATE_LIMIT`) and window `window` seconds (`RATE_WINDOW`). -/
def check_rate_limit (limit window : Nat) (now : ℚ) (st : RateStore) (key : String) :
    Except HTTPError Unit × RateStore :=
  let hits := storeGet st key
  let pruned := hits.filter (fun t => now - t < (window : ℚ))
  if limit ≤ pruned.length then
    (.error ⟨429, s!"Rate limit exceeded. Max {limit} requests per {window}s."⟩,
     storeSet st key pruned)
  else
    (.ok (), storeSet st key (pruned ++ [now]))

/-- Whether a `check_rate_limit` outcome admitted the request. -/
def admitted : Except HTTPError Unit → Bool
  | .ok _ => true
  | .error _ => false

/-- Run a sequence of `check_rate_limit` calls for one key at the given
times, collecting each call's outcome. -/
def runSeq (limit window : Nat) (key : String) : List ℚ → RateStore → List Bool × RateStore
  | [], st => ([], st)
  | t :: ts, st =>
    let r := check_rate_limit limit window t st key
    let rs := runSeq limit window key ts r.2
    (admitted r.1 :: rs.1, rs.2)

/-! ## Upload extraction (src/main.py:357-459)

`extract_text_from_upload` is embedded as a pure dispatch over the
uploaded bytes, the declared content type and the filename.  The outcome
is either an `HTTPException`, an extracted text, or the vision request the
image branch would issue to the model.  `pdfplumber` is an oracle
parameter mapping the raw bytes to either a failure (its exception text)
or a `PDFDoc` of per-page text and tables. -/

/-- One `pdfplumber` page: `extract_text()` and `extract_tables()` output. -/
structure PDFPage where
  text : Option String
  tables : List (List (List (Option String)))

/-- A parsed PDF document. -/
structure PDFDoc where
  pages : List PDFPage

/-- `str(cell) if cell else ""` for a table cell. -/
def cellStr : Option String → String
  | none => ""
  | some s => s

/-- One table row flattened to a pipe-delimited line. -/
def rowText (row : List (Option String)) : String :=
  String.intercalate " | " (row.map cellStr)

/-- The `pages` list accumulated by the loop in the PDF branch of
`extract_text_from_upload` (src/main.py:388-400). -/
def pdfPieces (doc : PDFDoc) : List String :=
  doc.pages.foldl
    (fun acc page =>
      let acc1 :=
        match page.text with
        | some t => if t = "" then acc else acc ++ [t]
        | none => acc
      page.tables.foldl
        (fun acc2 tbl => tbl.foldl (fun acc3 row => acc3 ++ [rowText row]) acc2)
        acc1)
    []

/-- `"\n".join(pages)` (src/main.py:401). -/
def extractPdfText (doc : PDFDoc) : String :=
  String.intercalate "\n" (pdfPieces doc)

/-- The extraction formula as the spec states it (claim C7): per page, the
page text followed by each table row flattened into one pipe-delimited
line, all pieces concatenated with newline separation. -/
def pageLines (p : PDFPage) : List String :=
  (match p.text with
   | some t => if t = "" then [] else [t]
   | none => []) ++
  (p.tables.map (fun tbl => tbl.map rowText)).flatten

/-- Specification-side statement of the PDF extraction result. -/
def pdfTextSpec (doc : PDFDoc) : String :=
  String.intercalate "\n" ((doc.pages.map pageLines).flatten)

/-- Whether a UTF-8 byte is a continuation byte. -/
def isCont (b : UInt8) : Bool :=
  128 ≤ b.toNat && b.toNat < 192

/-- Python `bytes.decode("utf-8", errors="replace")`: well-formed
sequences decode to their scalar value, ill-formed bytes become U+FFFD
(the exact number of replacement characters per ill-formed sequence may
differ from CPython's, which no claim depends on). -/
def utf8DecodeReplace : List UInt8 → List Char
  | [] => []
  | b :: rest =>
    let n := b.toNat
    if n < 128 then Char.ofNat n :: utf8DecodeReplace rest
    else if 194 ≤ n ∧ n ≤ 223 then
      match rest with
      | b2 :: rest2 =>
        if isCont b2 then
          Char.ofNat ((n - 192) * 64 + (b2.toNat - 128)) :: utf8DecodeReplace rest2
        else '�' :: utf8DecodeReplace (b2 :: rest2)
      | [] => ['�']
    else if 224 ≤ n ∧ n ≤ 239 then
      match rest with
      | b2 :: b3 :: rest3 =>
        let cp := (n - 224) * 4096 + (b2.toNat - 128) * 64 + (b3.toNat - 128)
        if isCont b2 && isCont b3 && decide (2048 ≤ cp) &&
            !(decide (55296 ≤ cp) && decide (cp ≤ 57343)) then
          Char.ofNat cp :: utf8DecodeReplace rest3
        else '�' :: utf8DecodeReplace (b2 :: b3 :: rest3)
      | [_] => ['�', '�']
      | [] => ['�']
    else if 240 ≤ n ∧ n ≤ 244 then
      match rest with
      | b2 :: b3 :: b4 :: rest4 =>
        let cp := (n - 240) * 262144 + (b2.toNat - 128) * 4096 +
          (b3.toNat - 128) * 64 + (b4.toNat - 128)
        if isCont b2 && isCont b3 && isCont b4 && decide (65536 ≤ cp) &&
            decide (cp ≤ 1114111) then
          Char.ofNat cp :: utf8DecodeReplace rest4
        else '�' :: utf8DecodeReplace (b2 :: b3 :: b4 :: rest4)
      | [_, _] => ['�', '�', '�']
      | [_] => ['�', '�']
      | [] => ['�']
    else '�' :: utf8DecodeReplace rest

/-- Python `str.lower()` (ASCII part). -/
def lowerStr (s : String) : String :=
  String.mk (s.data.map Char.toLower)

/-- The declared allow-list `SUPPORTED_MIME_TYPES` (src/main.py:357-365).
Note: the source defines this set but `extract_text_from_upload` never
consults it; dispatch is by content-type prefix and filename suffix. -/
def SUPPORTED_MIME_TYPES : List String :=
  ["application/pdf", "text/plain", "text/csv", "image/png", "image/jpeg",
   "image/webp", "image/gif"]

/-- `MAX_FILE_SIZE = 10 * 1024 * 1024` (src/main.py:367). -/
def MAX_FILE_SIZE : Nat := 10 * 1024 * 1024

/-- The observable outcome of `extract_text_from_upload`. -/
inductive ExtractResult where
  | httpError (status : Nat) (detail : String) : ExtractResult
  | text (s : String) : ExtractResult
  | visionRequest (mediaType : String) (content : List UInt8) : ExtractResult

/-- `extract_text_from_upload(file)` (src/main.py:370-459). -/
def extract_text_from_upload (pdfParse : List UInt8 → Except String PDFDoc)
    (content : List UInt8) (contentTypeOpt fileNameOpt : Option String) :
    ExtractResult :=
  if MAX_FILE_SIZE < content.length then
    .httpError 413 "File too large. Max 10 MB."
  else
    let ct := contentTypeOpt.getD ""
    let filename := lowerStr (fileNameOpt.getD "")
    if "text/".data.isPrefixOf ct.data || ".txt".data.isSuffixOf filename.data then
      .text (String.mk (utf8DecodeReplace content))
    else if ct == "application/pdf" || ".pdf".data.isSuffixOf filename.data then
      match pdfParse content with
      | .error e => .httpError 422 ("Failed to read PDF: " ++ e)
      | .ok doc =>
        let extracted := extractPdfText doc
        if pyStrip extracted.data = [] then
          .httpError 422 ("Could not extract text from PDF. The file may be image-only. " ++
            "Try using an OCR tool first, then submit the text.")
        else .text extracted
    else if "image/".data.isPrefixOf ct.data then
      let mediaType :=
        if ct ∈ (["image/png", "image/jpeg", "image/webp", "image/gif"] : List String) then ct
        else "image/png"
      .visionRequest mediaType content
    else
      .httpError 415 (s!"Unsupported file type: {ct}. " ++
        "Supported: PDF, PNG, JPEG, WebP, GIF, plain text.")

/-- A `pdfplumber` oracle for inputs whose PDF branch is never reached. -/
def pdfParseUnused : List UInt8 → Except String PDFDoc :=
  fun _ => .error "unused"

/-! ## Authentication (src/main.py:57-75) -/

/-- Python `s.split(",")`: split at every comma, keeping empty pieces. -/
def splitCommaAux : List Char → List Char → List String
  | [], cur => [String.mk cur.reverse]
  | c :: rest, cur =>
    if c = ',' then String.mk cur.reverse :: splitCommaAux rest []
    else splitCommaAux rest (c :: cur)

/-- `INTERNAL_API_KEYS = set(filter(None, os.getenv("API_KEYS",
"test-key").split(",")))`: empty entries are filtered out. -/
def internalApiKeys (env : Option String) : List String :=
  (splitCommaAux (env.getD "test-key").data []).filter (fun k => k ≠ "")

/-- `verify_api_key`: `secret` is the configured `RAPIDAPI_PROXY_SECRET`,
`keys` the configured allow-set, `proxyHeader` the
`X-RapidAPI-Proxy-Secret` header (absent = `none`), `xApiKey` the
`X-API-Key` header (absent = `""`, as `request.headers.get` defaults). -/
def verify_api_key (secret : String) (keys : List String)
    (proxyHeader : Option String) (xApiKey : String) : Except HTTPError String :=
  if secret ≠ "" ∧ proxyHeader = some secret then .ok "rapidapi"
  else if xApiKey ∈ keys then .ok "direct"
  else .error ⟨401, "Invalid API key"⟩

/-! # Theorems

## Basic list and whitespace lemmas -/

theorem skipWs_nil : skipWs [] = [] := rfl

theorem skipWs_cons_of_not_ws {c : Char} (h : jsonWs c = false) (t : List Char) :
    skipWs (c :: t) = c :: t := by
  simp [skipWs, List.dropWhile_cons, h]

theorem skipWs_eq_nil_iff {l : List Char} :
    skipWs l = [] ↔ ∀ c ∈ l, jsonWs c = true := by
  simp [skipWs, List.dropWhile_eq_nil_iff]

theorem takeWhile_append_of (p : Char → Bool) (ds rest : List Char)
    (h1 : ∀ c ∈ ds, p c = true) (h2 : ∀ c, rest.head? = some c → p c = false) :
    (ds ++ rest).takeWhile p = ds := by
  induction ds with
  | nil =>
    cases rest with
    | nil => rfl
    | cons r rs => simp [List.takeWhile_cons, h2 r rfl]
  | cons d ds ih =>
    have hd : p d = true := h1 d (by simp)
    simp only [List.cons_append, List.takeWhile_cons, hd, if_true]
    exact congrArg (d :: ·) (ih (fun c hc => h1 c (by simp [hc])))

theorem dropWhile_append_of (p : Char → Bool) (ds rest : List Char)
    (h1 : ∀ c ∈ ds, p c = true) (h2 : ∀ c, rest.head? = some c → p c = false) :
    (ds ++ rest).dropWhile p = rest := by
  induction ds with
  | nil =>
    cases rest with
    | nil => rfl
    | cons r rs => simp [List.dropWhile_cons, h2 r rfl]
  | cons d ds ih =>
    have hd : p d = true := h1 d (by simp)
    simp only [List.cons_append, List.dropWhile_cons, hd, if_true]
    exact ih (fun c hc => h1 c (by simp [hc]))

/-! ## Digit lemmas -/

theorem digitVal_digitChar {d : Nat} (h : d < 10) : digitVal (digitChar d) = d := by
  interval_cases d <;> rfl

theorem digitChar_isDigit {d : Nat} (h : d < 10) : (digitChar d).isDigit = true := by
  interval_cases d <;> rfl

theorem natDigits_ne_nil (n : Nat) : natDigits n ≠ [] := by
  unfold natDigits
  split
  · simp
  · simp

theorem natDigits_all_digits (n : Nat) : ∀ c ∈ natDigits n, c.isDigit = true := by
  induction n using Nat.strong_induction_on with
  | _ n ih =>
    unfold natDigits
    split
    · next h => simpa using digitChar_isDigit h
    · next h =>
      intro c hc
      rcases List.mem_append.mp hc with h1 | h2
      · exact ih (n / 10) (Nat.div_lt_self (by omega) (by omega)) c h1
      · have : c = digitChar (n % 10) := by simpa using h2
        subst this
        exact digitChar_isDigit (Nat.mod_lt _ (by omega))

theorem natDigits_head_ne_zero {n : Nat} (hn : n ≠ 0) :
    (natDigits n).head? ≠ some '0' := by
  induction n using Nat.strong_induction_on with
  | _ n ih =>
    unfold natDigits
    split
    · next h =>
      intro hc
      have hc' : digitChar n = '0' := by simpa using hc
      interval_cases n
      · exact hn rfl
      all_goals exact absurd hc' (by decide)
    · next h =>
      have hne := natDigits_ne_nil (n / 10)
      have : (natDigits (n / 10) ++ [digitChar (n % 10)]).head? = (natDigits (n / 10)).head? := by
        cases hh : natDigits (n / 10) with
        | nil => exact absurd hh hne
        | cons a t => simp
      rw [this]
      exact ih (n / 10) (Nat.div_lt_self (by omega) (by omega)) (by omega)

theorem digitsVal_from (a : Nat) (ds : List Char) :
    ds.foldl (fun x c => 10 * x + digitVal c) a =
      a * 10 ^ ds.length + digitsVal ds := by
  induction ds generalizing a with
  | nil => simp [digitsVal]
  | cons d ds ih =>
    simp only [List.foldl_cons, digitsVal] at *
    rw [ih (10 * a + digitVal d), ih (10 * 0 + digitVal d)]
    ring_nf
    simp [List.length_cons, pow_succ]
    ring

theorem digitsVal_append (a b : List Char) :
    digitsVal (a ++ b) = digitsVal a * 10 ^ b.length + digitsVal b := by
  simp only [digitsVal, List.foldl_append]
  exact digitsVal_from _ b

theorem digitsVal_natDigits (n : Nat) : digitsVal (natDigits n) = n := by
  induction n using Nat.strong_induction_on with
  | _ n ih =>
    unfold natDigits
    split
    · next h => simp [digitsVal, digitVal_digitChar h]
    · next h =>
      rw [digitsVal_append]
      have h1 := ih (n / 10) (Nat.div_lt_self (by omega) (by omega))
      have h2 : digitsVal [digitChar (n % 10)] = n % 10 := by
        simp [digitsVal, digitVal_digitChar (Nat.mod_lt _ (show 0 < 10 by omega))]
      rw [h1, h2]
      simp
      omega

theorem digitsVal_replicate_zero (k : Nat) :
    digitsVal (List.replicate k '0') = 0 := by
  induction k with
  | zero => rfl
  | succ k ih =>
    have : digitsVal (List.replicate (k + 1) '0') = digitsVal ([ '0' ] ++ List.replicate k '0') := by
      simp [List.replicate_succ]
    rw [this, digitsVal_append, ih]
    simp [digitsVal, digitVal]

/-! ## Character-class helpers -/

theorem beq_false_of_isDigit_left {c d : Char} (h : c.isDigit = true)
    (hd : d.isDigit = false) : (c == d) = false := by
  cases hcd : c == d
  · rfl
  · exact absurd (beq_iff_eq.mp hcd ▸ h) (by simp [hd])

theorem numSafeB_head {rest : List Char} {c : Char} (h : numSafeB rest = true)
    (hc : rest.head? = some c) : c.isDigit = false ∧ (c == '.') = false := by
  cases rest with
  | nil => simp at hc
  | cons a t =>
    have : a = c := by simpa using hc
    subst this
    simp [numSafeB] at h
    exact ⟨by simp [h.1], by simp [h.2]⟩

/-! ## `padDigits` facts -/

theorem natDigits_length_pos (n : Nat) : 0 < (natDigits n).length :=
  List.length_pos.mpr (natDigits_ne_nil n)

theorem natDigits_length_eq_one {n : Nat} (h : n < 10) :
    (natDigits n).length = 1 := by
  unfold natDigits
  simp [h]

theorem ten_le_of_natDigits_length {n : Nat} (h : 1 < (natDigits n).length) :
    10 ≤ n := by
  by_contra hlt
  have := natDigits_length_eq_one (show n < 10 by omega)
  omega

theorem padDigits_zero (n : Nat) : padDigits n 0 = natDigits n := by
  simp only [padDigits]
  have := natDigits_length_pos n
  rw [if_neg (by omega)]

theorem padDigits_all_digits (n e : Nat) : ∀ c ∈ padDigits n e, c.isDigit = true := by
  simp only [padDigits]
  intro c hc
  split at hc
  · rcases List.mem_append.mp hc with h | h
    · have : c = '0' := List.eq_of_mem_replicate h
      subst this
      rfl
    · exact natDigits_all_digits n c h
  · exact natDigits_all_digits n c hc

theorem padDigits_ne_nil (n e : Nat) : padDigits n e ≠ [] := by
  simp only [padDigits]
  split
  · simp [natDigits_ne_nil n]
  · exact natDigits_ne_nil n

theorem padDigits_length (n e : Nat) :
    (padDigits n e).length =
      if (natDigits n).length ≤ e then e + 1 else (natDigits n).length := by
  simp only [padDigits]
  split
  · next h =>
    simp only [List.length_append, List.length_replicate, if_pos h]
    omega
  · next h => simp only [if_neg h]

theorem digitsVal_padDigits (n e : Nat) : digitsVal (padDigits n e) = n := by
  simp only [padDigits]
  split
  · rw [digitsVal_append, digitsVal_replicate_zero, digitsVal_natDigits]
    simp
  · exact digitsVal_natDigits n

theorem head_take {l : List Char} {k : Nat} (hk : 0 < k) :
    (l.take k).head? = l.head? := by
  cases l with
  | nil => simp
  | cons a t =>
    cases k with
    | zero => omega
    | succ k => simp

theorem natDigits_no_leading_zero (n : Nat) :
    ¬(1 < (natDigits n).length ∧ (natDigits n).head? = some '0') := by
  rintro ⟨h1, h2⟩
  have h10 : 10 ≤ n := ten_le_of_natDigits_length h1
  exact natDigits_head_ne_zero (by omega) h2

theorem intPart_no_leading_zero (n e : Nat) (he : 1 ≤ e) :
    ¬(1 < ((padDigits n e).take ((padDigits n e).length - e)).length ∧
      ((padDigits n e).take ((padDigits n e).length - e)).head? = some '0') := by
  rintro ⟨h1, h2⟩
  rw [List.length_take] at h1
  rw [padDigits_length] at h1
  split at h1
  · omega
  · next hgt =>
    -- no padding: padDigits n e = natDigits n, the head digit of n ≥ 10
    have hP : padDigits n e = natDigits n := by
      simp only [padDigits]
      rw [if_neg hgt]
    rw [hP] at h2
    have hlen : 1 < (natDigits n).length := by omega
    have h10 : 10 ≤ n := ten_le_of_natDigits_length hlen
    rw [head_take (by omega)] at h2
    exact natDigits_head_ne_zero (by omega) h2

/-! ## `readNum` round-trip -/

theorem readNum_nodot (neg : Bool) (I rest : List Char) (hne : I ≠ [])
    (hdig : ∀ c ∈ I, c.isDigit = true)
    (hlz : ¬(1 < I.length ∧ I.head? = some '0'))
    (hsafe : numSafeB rest = true) :
    readNum ((if neg then ['-'] else []) ++ I ++ rest) =
      some (.num (applySign neg (digitsVal I)) 0, rest) := by
  obtain ⟨c0, I', rfl⟩ : ∃ c0 I', I = c0 :: I' := by
    cases I with
    | nil => exact absurd rfl hne
    | cons a t => exact ⟨a, t, rfl⟩
  have hc0 : c0.isDigit = true := hdig c0 (by simp)
  have htake : List.takeWhile Char.isDigit (c0 :: (I' ++ rest)) = c0 :: I' := by
    have := takeWhile_append_of Char.isDigit (c0 :: I') rest hdig
      (fun c hc => (numSafeB_head hsafe hc).1)
    simpa using this
  have hdrop : List.dropWhile Char.isDigit (c0 :: (I' ++ rest)) = rest := by
    have := dropWhile_append_of Char.isDigit (c0 :: I') rest hdig
      (fun c hc => (numSafeB_head hsafe hc).1)
    simpa using this
  have hdot : (rest.head? == some '.') = false := by
    cases hr : rest.head? with
    | none => rfl
    | some c =>
      have := (numSafeB_head hsafe hr).2
      simpa using this
  cases neg with
  | true =>
    show readNum ('-' :: c0 :: (I' ++ rest)) = _
    rw [readNum]
    simp only [List.head?_cons, List.tail_cons, beq_self_eq_true, if_true]
    rw [htake, hdrop]
    simp [hdot, applySign]
    simpa using hlz
  | false =>
    show readNum (c0 :: (I' ++ rest)) = _
    have hneg : ((c0 :: (I' ++ rest)).head? == some '-') = false := by
      simp only [List.head?_cons]
      simpa using beq_false_of_isDigit_left hc0 (by rfl)
    rw [readNum]
    rw [hneg]
    simp only [Bool.false_eq_true, if_false]
    rw [htake, hdrop]
    simp [hdot, applySign]
    simpa using hlz

theorem readNum_dot (neg : Bool) (I F rest : List Char) (hneI : I ≠ [])
    (hdigI : ∀ c ∈ I, c.isDigit = true)
    (hlz : ¬(1 < I.length ∧ I.head? = some '0'))
    (hneF : F ≠ []) (hdigF : ∀ c ∈ F, c.isDigit = true)
    (hsafe : numSafeB rest = true) :
    readNum ((if neg then ['-'] else []) ++ I ++ '.' :: F ++ rest) =
      some (.num (applySign neg (digitsVal (I ++ F))) F.length, rest) := by
  obtain ⟨c0, I', rfl⟩ : ∃ c0 I', I = c0 :: I' := by
    cases I with
    | nil => exact absurd rfl hneI
    | cons a t => exact ⟨a, t, rfl⟩
  have hc0 : c0.isDigit = true := hdigI c0 (by simp)
  have htake : List.takeWhile Char.isDigit (c0 :: (I' ++ '.' :: F ++ rest)) = c0 :: I' := by
    have := takeWhile_append_of Char.isDigit (c0 :: I') ('.' :: F ++ rest) hdigI
      (fun c hc => by
        have h : '.' = c := by simpa using hc
        subst h
        rfl)
    simpa using this
  have hdrop : List.dropWhile Char.isDigit (c0 :: (I' ++ '.' :: F ++ rest)) = '.' :: F ++ rest := by
    have := dropWhile_append_of Char.isDigit (c0 :: I') ('.' :: F ++ rest) hdigI
      (fun c hc => by
        have h : '.' = c := by simpa using hc
        subst h
        rfl)
    simpa using this
  have htakeF : (F ++ rest).takeWhile Char.isDigit = F :=
    takeWhile_append_of _ _ _ hdigF (fun c hc => (numSafeB_head hsafe hc).1)
  have hdropF : (F ++ rest).dropWhile Char.isDigit = rest :=
    dropWhile_append_of _ _ _ hdigF (fun c hc => (numSafeB_head hsafe hc).1)
  cases neg with
  | true =>
    show readNum ('-' :: c0 :: (I' ++ '.' :: F ++ rest)) = _
    rw [readNum]
    simp only [List.head?_cons, List.tail_cons, beq_self_eq_true, if_true]
    rw [htake, hdrop]
    simp [htakeF, hdropF, hneF, applySign]
    simpa using hlz
  | false =>
    show readNum (c0 :: (I' ++ '.' :: F ++ rest)) = _
    have hneg : ((c0 :: (I' ++ '.' :: F ++ rest)).head? == some '-') = false := by
      simp only [List.head?_cons]
      simpa using beq_false_of_isDigit_left hc0 (by rfl)
    rw [readNum]
    rw [hneg]
    simp only [Bool.false_eq_true, if_false]
    rw [htake, hdrop]
    simp [htakeF, hdropF, hneF, applySign]
    simpa using hlz

theorem applySign_decide_natAbs (m : Int) :
    applySign (decide (m < 0)) m.natAbs = m := by
  by_cases hm : m < 0
  · have h1 : ((m.natAbs : Int)) = -m := Int.ofNat_natAbs_of_nonpos (by omega)
    simp [applySign, hm, h1]
  · have h1 : ((m.natAbs : Int)) = m := Int.natAbs_of_nonneg (by omega)
    simp [applySign, hm, h1]

theorem readNum_renderNum (m : Int) (e : Nat) (rest : List Char)
    (hsafe : numSafeB rest = true) :
    readNum (renderNum m e ++ rest) = some (.num m e, rest) := by
  have hsign : (if m < 0 then (['-'] : List Char) else []) =
      (if decide (m < 0) = true then ['-'] else []) := by
    by_cases hm : m < 0 <;> simp [hm]
  by_cases he : e = 0
  · subst he
    have key := readNum_nodot (decide (m < 0)) (natDigits m.natAbs) rest
      (natDigits_ne_nil _) (natDigits_all_digits _) (natDigits_no_leading_zero _) hsafe
    rw [digitsVal_natDigits, applySign_decide_natAbs] at key
    simpa [renderNum, hsign, padDigits_zero, List.append_assoc] using key
  · have he1 : 1 ≤ e := by omega
    set P := padDigits m.natAbs e with hP
    set I := P.take (P.length - e) with hI
    set F := P.drop (P.length - e) with hF
    have hPlen : e + 1 ≤ P.length := by
      rw [hP, padDigits_length]
      split <;> omega
    have hIF : I ++ F = P := List.take_append_drop _ _
    have hFlen : F.length = e := by
      rw [hF, List.length_drop]
      omega
    have hIlen : I.length = P.length - e := by
      rw [hI, List.length_take]
      omega
    have hneI : I ≠ [] := by
      have : 0 < I.length := by omega
      exact List.length_pos.mp this
    have hneF : F ≠ [] := by
      have : 0 < F.length := by omega
      exact List.length_pos.mp this
    have hdigI : ∀ c ∈ I, c.isDigit = true := fun c hc =>
      padDigits_all_digits _ _ c (hIF ▸ List.mem_append.mpr (Or.inl hc))
    have hdigF : ∀ c ∈ F, c.isDigit = true := fun c hc =>
      padDigits_all_digits _ _ c (hIF ▸ List.mem_append.mpr (Or.inr hc))
    have hlz : ¬(1 < I.length ∧ I.head? = some '0') := intPart_no_leading_zero _ _ he1
    have key := readNum_dot (decide (m < 0)) I F rest hneI hdigI hlz hneF hdigF hsafe
    have hval : digitsVal (I ++ F) = m.natAbs := by
      rw [hIF, hP]
      exact digitsVal_padDigits _ _
    rw [hval, applySign_decide_natAbs, hFlen] at key
    simpa [renderNum, hsign, he, hI, hF, hP, List.append_assoc] using key

/-! ## String reader round-trip -/

theorem escBody_nil : escBody [] = [] := rfl

theorem escBody_cons (c : Char) (cs : List Char) :
    escBody (c :: cs) = escChar c ++ escBody cs := rfl

theorem readStr_escBody (cs rest : List Char) :
    readStr (escBody cs ++ '"' :: rest) = some (cs, rest) := by
  induction cs with
  | nil =>
    show readStr ('"' :: rest) = some ([], rest)
    simp [readStr]
  | cons c cs ih =>
    by_cases h1 : c = '"'
    · subst h1
      rw [escBody_cons]
      show readStr ('\\' :: '"' :: (escBody cs ++ '"' :: rest)) = _
      simp [readStr, readStrEsc, unesc, ih]
    · by_cases h2 : c = '\\'
      · subst h2
        rw [escBody_cons]
        show readStr ('\\' :: '\\' :: (escBody cs ++ '"' :: rest)) = _
        simp [readStr, readStrEsc, unesc, ih]
      · by_cases h3 : c = '\n'
        · subst h3
          rw [escBody_cons]
          show readStr ('\\' :: 'n' :: (escBody cs ++ '"' :: rest)) = _
          simp [readStr, readStrEsc, unesc, ih]
        · have hesc : escChar c = [c] := by
            simp [escChar, h1, h2, h3]
          have hb1 : (c == '"') = false := beq_false_of_ne h1
          have hb2 : (c == '\\') = false := beq_false_of_ne h2
          rw [escBody_cons, hesc]
          simp only [List.cons_append, List.nil_append]
          simp only [readStr, hb1, hb2, Bool.false_eq_true, if_false]
          rw [ih]

/-! ## Shape of rendered values -/

theorem beq_false_of_ne {a b : Char} (h : ¬a = b) : (a == b) = false := by
  simp [h]

theorem ne_of_isDigit_gap {c d : Char} (h : c.isDigit = true)
    (hd : d.isDigit = false) : ¬d = c := by
  intro e
  subst e
  rw [h] at hd
  exact Bool.noConfusion hd

theorem nodes_pos (j : Json) : 0 < nodes j := by
  cases j <;> simp [nodes]

theorem padDigits_length_gt (n e : Nat) : e < (padDigits n e).length := by
  rw [padDigits_length]
  split <;> omega

theorem renderNum_start (m : Int) (e : Nat) :
    ∃ c t, renderNum m e = c :: t ∧ (c.isDigit = true ∨ c = '-') := by
  rw [renderNum]
  by_cases hm : m < 0
  · rw [if_pos hm]
    exact ⟨'-', _, rfl, Or.inr rfl⟩
  · rw [if_neg hm]
    by_cases he : e = 0
    · subst he
      obtain ⟨c0, t, hct⟩ : ∃ c0 t, padDigits m.natAbs 0 = c0 :: t := by
        cases h : padDigits m.natAbs 0 with
        | nil => exact absurd h (padDigits_ne_nil _ _)
        | cons a b => exact ⟨a, b, rfl⟩
      refine ⟨c0, t, ?_, Or.inl ?_⟩
      · rw [if_pos rfl, hct]
        rfl
      · refine padDigits_all_digits m.natAbs 0 c0 ?_
        rw [hct]
        exact List.mem_cons_self c0 t
    · have hlen := padDigits_length_gt m.natAbs e
      set P := padDigits m.natAbs e with hP
      set I := P.take (P.length - e) with hI
      obtain ⟨c0, t, hct⟩ : ∃ c0 t, I = c0 :: t := by
        cases h : I with
        | nil =>
          have h0 : I.length = 0 := by rw [h]; rfl
          rw [hI, List.length_take] at h0
          omega
        | cons a b => exact ⟨a, b, rfl⟩
      refine ⟨c0, t ++ '.' :: P.drop (P.length - e), ?_, Or.inl ?_⟩
      · rw [if_neg he]
        simp [hct]
      · have hmem : c0 ∈ I := by simp [hct]
        refine padDigits_all_digits m.natAbs e c0 ?_
        have hm2 : c0 ∈ List.take (P.length - e) P := hI ▸ hmem
        exact List.mem_of_mem_take hm2

theorem render_start (j : Json) :
    ∃ c t, render j = c :: t ∧
      (c = 'n' ∨ c = 't' ∨ c = 'f' ∨ c = '"' ∨ c = '[' ∨ c = '{' ∨
        c.isDigit = true ∨ c = '-') := by
  cases j with
  | null => exact ⟨'n', ['u', 'l', 'l'], rfl, Or.inl rfl⟩
  | bool b =>
    cases b with
    | true => exact ⟨'t', ['r', 'u', 'e'], rfl, Or.inr (Or.inl rfl)⟩
    | false => exact ⟨'f', ['a', 'l', 's', 'e'], rfl, Or.inr (Or.inr (Or.inl rfl))⟩
  | num m e =>
    obtain ⟨c, t, hct, hd⟩ := renderNum_start m e
    exact ⟨c, t, by simp [render, hct], by tauto⟩
  | str sv => exact ⟨'"', escBody sv.data ++ ['"'], rfl, by tauto⟩
  | arr xs => exact ⟨'[', renderItems xs ++ [']'], rfl, by tauto⟩
  | obj kvs => exact ⟨'{', renderPairs kvs ++ ['}'], rfl, by tauto⟩

theorem start_not_ws {c : Char}
    (h : c = 'n' ∨ c = 't' ∨ c = 'f' ∨ c = '"' ∨ c = '[' ∨ c = '{' ∨
      c.isDigit = true ∨ c = '-') : jsonWs c = false := by
  rcases h with rfl | rfl | rfl | rfl | rfl | rfl | hd | rfl
  · rfl
  · rfl
  · rfl
  · rfl
  · rfl
  · rfl
  · have h1 : (c == ' ') = false := beq_false_of_isDigit_left hd (by decide)
    have h2 : (c == '\t') = false := beq_false_of_isDigit_left hd (by decide)
    have h3 : (c == '\n') = false := beq_false_of_isDigit_left hd (by decide)
    have h4 : (c == '\r') = false := beq_false_of_isDigit_left hd (by decide)
    simp [jsonWs, h1, h2, h3, h4]
  · rfl

theorem skipWs_render (j : Json) (rest : List Char) :
    skipWs (render j ++ rest) = render j ++ rest := by
  obtain ⟨c, t, hct, hok⟩ := render_start j
  rw [hct]
  exact skipWs_cons_of_not_ws (start_not_ws hok) _

theorem strMk_data (s : String) : String.mk s.data = s := by
  cases s
  rfl

theorem renderItems_single (x : Json) : renderItems [x] = render x := rfl

theorem renderItems_cons2 (x y : Json) (ys : List Json) :
    renderItems (x :: y :: ys) = render x ++ ',' :: renderItems (y :: ys) := rfl

theorem renderPairs_single (k : String) (v : Json) :
    renderPairs [(k, v)] = renderStr k.data ++ ':' :: render v := rfl

theorem renderPairs_cons2 (k : String) (v : Json) (p : String × Json)
    (ps : List (String × Json)) :
    renderPairs ((k, v) :: p :: ps) =
      renderStr k.data ++ ':' :: render v ++ ',' :: renderPairs (p :: ps) := rfl

mutual

theorem nodes_le_render : ∀ (j : Json), nodes j ≤ (render j).length
  | .null => by simp [nodes, render]
  | .bool b => by cases b <;> simp [nodes, render]
  | .num m e => by
    obtain ⟨c, t, h, _⟩ := renderNum_start m e
    simp [nodes, render, h]
  | .str sv => by simp [nodes, render, renderStr]
  | .arr xs => by
    have h := nodesList_le_renderItems xs
    simp only [nodes, render, List.length_cons, List.length_append, List.length_singleton]
    omega
  | .obj kvs => by
    have h := nodesPairs_le_renderPairs kvs
    simp only [nodes, render, List.length_cons, List.length_append, List.length_singleton]
    omega

theorem nodesList_le_renderItems : ∀ (xs : List Json), nodesList xs ≤ (renderItems xs).length
  | [] => by simp [nodesList, renderItems]
  | [x] => by
    have h := nodes_le_render x
    simp only [nodesList, renderItems]
    omega
  | x :: y :: ys => by
    have h1 := nodes_le_render x
    have h2 := nodesList_le_renderItems (y :: ys)
    simp only [nodesList] at h2
    simp only [nodesList, renderItems_cons2, List.length_append, List.length_cons]
    omega

theorem nodesPairs_le_renderPairs :
    ∀ (kvs : List (String × Json)), nodesPairs kvs ≤ (renderPairs kvs).length
  | [] => by simp [nodesPairs, renderPairs]
  | [(k, v)] => by
    have h := nodes_le_render v
    simp only [nodesPairs, renderPairs_single, List.length_append, List.length_cons]
    omega
  | (k, v) :: p :: ps => by
    have h1 := nodes_le_render v
    have h2 := nodesPairs_le_renderPairs (p :: ps)
    simp only [nodesPairs] at h2
    simp only [nodesPairs, renderPairs_cons2, List.length_append, List.length_cons]
    omega

end

theorem renderItems_start (x : Json) (xs : List Json) :
    ∃ u, renderItems (x :: xs) = render x ++ u := by
  cases xs with
  | nil => exact ⟨[], by simp [renderItems_single]⟩
  | cons y ys => exact ⟨',' :: renderItems (y :: ys), renderItems_cons2 x y ys⟩

theorem skipWs_renderItems (x : Json) (xs : List Json) (rest : List Char) :
    skipWs (renderItems (x :: xs) ++ rest) = renderItems (x :: xs) ++ rest := by
  obtain ⟨u, hu⟩ := renderItems_start x xs
  rw [hu, List.append_assoc, skipWs_render x (u ++ rest), ← List.append_assoc]

theorem renderPairs_start (k : String) (v : Json) (ps : List (String × Json)) :
    ∃ u, renderPairs ((k, v) :: ps) = '"' :: u := by
  cases ps with
  | nil => exact ⟨escBody k.data ++ ['"'] ++ ':' :: render v, by simp [renderPairs_single, renderStr]⟩
  | cons p ps' =>
    exact ⟨escBody k.data ++ ['"'] ++ ':' :: render v ++ ',' :: renderPairs (p :: ps'),
      by simp [renderPairs_cons2, renderStr]⟩

theorem skipWs_renderPairs (k : String) (v : Json) (ps : List (String × Json)) (rest : List Char) :
    skipWs (renderPairs ((k, v) :: ps) ++ rest) = renderPairs ((k, v) :: ps) ++ rest := by
  obtain ⟨u, hu⟩ := renderPairs_start k v ps
  rw [hu]
  exact skipWs_cons_of_not_ws (by rfl) _

theorem render_append_head_ne (j : Json) (u : List Char) {d : Char}
    (hd : d = ']' ∨ d = '}' ∨ d = ',') :
    ((render j ++ u).head? == some d) = false := by
  obtain ⟨c, t, hct, hok⟩ := render_start j
  rw [hct]
  simp only [List.cons_append, List.head?_cons]
  suffices h : (c == d) = false by simpa using h
  apply beq_false_of_ne
  rcases hok with rfl | rfl | rfl | rfl | rfl | rfl | hdig | rfl <;>
    rcases hd with rfl | rfl | rfl <;>
    first
      | decide
      | exact fun h => ne_of_isDigit_gap hdig (by decide) h.symm

theorem numSafeB_punct {c : Char} (rest : List Char)
    (h : c = ']' ∨ c = '}' ∨ c = ',') : numSafeB (c :: rest) = true := by
  rcases h with rfl | rfl | rfl <;> rfl

theorem skipWs_colon (x : List Char) : skipWs (':' :: x) = ':' :: x :=
  skipWs_cons_of_not_ws (by rfl) x

theorem skipWs_comma (x : List Char) : skipWs (',' :: x) = ',' :: x :=
  skipWs_cons_of_not_ws (by rfl) x

theorem skipWs_rbrack (x : List Char) : skipWs (']' :: x) = ']' :: x :=
  skipWs_cons_of_not_ws (by rfl) x

theorem skipWs_rbrace (x : List Char) : skipWs ('}' :: x) = '}' :: x :=
  skipWs_cons_of_not_ws (by rfl) x

theorem render_append_ne_nil (j : Json) (u : List Char) : render j ++ u ≠ [] := by
  obtain ⟨c, t, hct, _⟩ := render_start j
  rw [hct]
  simp

theorem render_head_ne (j : Json) (u : List Char) {d : Char}
    (hd : d = ']' ∨ d = '}' ∨ d = ',') : ¬(render j ++ u).head? = some d := by
  intro hcd
  have h := render_append_head_ne j u hd
  rw [hcd] at h
  simp at h

/-! ## The reader/serializer round-trip, by induction on fuel -/

theorem read_render : ∀ (f : Nat),
    (∀ (j : Json) (rest : List Char), nodes j ≤ f →
      (Json.isNumC j = true → numSafeB rest = true) →
      readVal f (render j ++ rest) = some (j, rest)) ∧
    (∀ (xs : List Json) (rest : List Char), xs ≠ [] → nodesList xs < f →
      readArrItems f (renderItems xs ++ ']' :: rest) = some (xs, rest)) ∧
    (∀ (kvs : List (String × Json)) (rest : List Char), kvs ≠ [] → nodesPairs kvs < f →
      readObjItems f (renderPairs kvs ++ '}' :: rest) = some (kvs, rest)) := by
  intro f
  induction f with
  | zero =>
    refine ⟨fun j rest hn _ => absurd hn (by have := nodes_pos j; omega),
      fun xs rest hne hlt => absurd hlt (by omega),
      fun kvs rest hne hlt => absurd hlt (by omega)⟩
  | succ f ih =>
    obtain ⟨ihv, iha, iho⟩ := ih
    refine ⟨?_, ?_, ?_⟩
    · intro j rest hn hsafe
      cases j with
      | null =>
        show readVal (f + 1) (['n', 'u', 'l', 'l'] ++ rest) = some (.null, rest)
        simp [readVal, List.isPrefixOf]
      | bool b =>
        cases b with
        | true =>
          show readVal (f + 1) (['t', 'r', 'u', 'e'] ++ rest) = some (.bool true, rest)
          simp [readVal, List.isPrefixOf]
        | false =>
          show readVal (f + 1) (['f', 'a', 'l', 's', 'e'] ++ rest) = some (.bool false, rest)
          simp [readVal, List.isPrefixOf]
      | num m e =>
        have hsafe' : numSafeB rest = true := hsafe rfl
        have hread := readNum_renderNum m e rest hsafe'
        obtain ⟨c, t, hct, hd⟩ := renderNum_start m e
        show readVal (f + 1) (renderNum m e ++ rest) = some (.num m e, rest)
        rcases hd with hdig | hdash
        · have h1 : ('n' == c) = false := beq_false_of_ne (ne_of_isDigit_gap hdig (by decide))
          have h2 : ('t' == c) = false := beq_false_of_ne (ne_of_isDigit_gap hdig (by decide))
          have h3 : ('f' == c) = false := beq_false_of_ne (ne_of_isDigit_gap hdig (by decide))
          have h4 : (c == '"') = false := beq_false_of_isDigit_left hdig (by decide)
          have h5 : (c == '[') = false := beq_false_of_isDigit_left hdig (by decide)
          have h6 : (c == '{') = false := beq_false_of_isDigit_left hdig (by decide)
          rw [hct, List.cons_append]
          rw [hct, List.cons_append] at hread
          simp [readVal, List.isPrefixOf, h1, h2, h3, h4, h5, h6, hdig, hread]
        · subst hdash
          rw [hct, List.cons_append]
          rw [hct, List.cons_append] at hread
          simp [readVal, List.isPrefixOf, hread]
      | str sv =>
        show readVal (f + 1) (renderStr sv.data ++ rest) = some (.str sv, rest)
        have hshape : renderStr sv.data ++ rest =
            '"' :: (escBody sv.data ++ '"' :: rest) := by
          rw [renderStr]
          simp
        rw [hshape]
        simp [readVal, List.isPrefixOf, readStr_escBody, strMk_data]
      | arr xs =>
        cases xs with
        | nil =>
          show readVal (f + 1) ('[' :: ']' :: rest) = some (.arr [], rest)
          simp [readVal, List.isPrefixOf, skipWs_rbrack]
        | cons x xs' =>
          have hn' : nodesList (x :: xs') < f := by
            simp only [nodes] at hn
            omega
          obtain ⟨u, hu⟩ := renderItems_start x xs'
          have hskip : skipWs (renderItems (x :: xs') ++ ']' :: rest) =
              renderItems (x :: xs') ++ ']' :: rest := skipWs_renderItems x xs' (']' :: rest)
          have hhead : ((renderItems (x :: xs') ++ ']' :: rest).head? == some ']') = false := by
            rw [hu, List.append_assoc]
            exact render_append_head_ne x _ (Or.inl rfl)
          have harr := iha (x :: xs') rest (by simp) hn'
          have hshape : render (.arr (x :: xs')) ++ rest =
              '[' :: (renderItems (x :: xs') ++ ']' :: rest) := by
            simp [render]
          rw [hshape]
          simp [readVal, List.isPrefixOf, hskip, harr]
          rw [hu]
          exact ⟨render_head_ne x u (Or.inl rfl), render_append_ne_nil x u⟩
      | obj kvs =>
        cases kvs with
        | nil =>
          show readVal (f + 1) ('{' :: '}' :: rest) = some (.obj [], rest)
          simp [readVal, List.isPrefixOf, skipWs_rbrace]
        | cons kv kvs' =>
          obtain ⟨k, v⟩ := kv
          have hn' : nodesPairs ((k, v) :: kvs') < f := by
            simp only [nodes] at hn
            omega
          have hskip : skipWs (renderPairs ((k, v) :: kvs') ++ '}' :: rest) =
              renderPairs ((k, v) :: kvs') ++ '}' :: rest :=
            skipWs_renderPairs k v kvs' ('}' :: rest)
          have hhead : ((renderPairs ((k, v) :: kvs') ++ '}' :: rest).head? == some '}') = false := by
            obtain ⟨u, hu⟩ := renderPairs_start k v kvs'
            rw [hu]
            simp
          have hobj := iho ((k, v) :: kvs') rest (by simp) hn'
          have hshape : render (.obj ((k, v) :: kvs')) ++ rest =
              '{' :: (renderPairs ((k, v) :: kvs') ++ '}' :: rest) := by
            simp [render]
          rw [hshape]
          simp [readVal, List.isPrefixOf, hskip, hobj]
          obtain ⟨u, hu⟩ := renderPairs_start k v kvs'
          rw [hu]
          exact ⟨by simp, by simp⟩
    · intro xs rest hne hlt
      cases xs with
      | nil => exact absurd rfl hne
      | cons x xs' =>
        cases xs' with
        | nil =>
          have hv := ihv x (']' :: rest)
            (by simp only [nodesList] at hlt; omega)
            (fun _ => numSafeB_punct rest (Or.inl rfl))
          rw [renderItems_single]
          simp only [readArrItems]
          rw [hv]
          simp [skipWs_rbrack]
        | cons y ys =>
          have hx := nodes_pos x
          have hlt' := hlt
          simp only [nodesList] at hlt'
          have hyy : nodesList (y :: ys) = nodes y + nodesList ys := rfl
          have hv := ihv x (',' :: (renderItems (y :: ys) ++ ']' :: rest))
            (by omega)
            (fun _ => numSafeB_punct _ (Or.inr (Or.inr rfl)))
          have hrec := iha (y :: ys) rest (by simp) (by omega)
          have hskip2 : skipWs (renderItems (y :: ys) ++ ']' :: rest) =
              renderItems (y :: ys) ++ ']' :: rest := skipWs_renderItems y ys (']' :: rest)
          have hshape : renderItems (x :: y :: ys) ++ ']' :: rest =
              render x ++ (',' :: (renderItems (y :: ys) ++ ']' :: rest)) := by
            rw [renderItems_cons2]
            simp
          rw [hshape]
          simp only [readArrItems]
          rw [hv]
          simp [skipWs_comma, hskip2, hrec]
    · intro kvs rest hne hlt
      cases kvs with
      | nil => exact absurd rfl hne
      | cons kv kvs' =>
        obtain ⟨k, v⟩ := kv
        cases kvs' with
        | nil =>
          have hv := ihv v ('}' :: rest)
            (by simp only [nodesPairs] at hlt; omega)
            (fun _ => numSafeB_punct rest (Or.inr (Or.inl rfl)))
          have hshape : renderPairs [(k, v)] ++ '}' :: rest =
              '"' :: (escBody k.data ++ '"' :: (':' :: (render v ++ '}' :: rest))) := by
            rw [renderPairs_single, renderStr]
            simp
          rw [hshape]
          simp only [readObjItems]
          rw [readStr_escBody]
          simp [skipWs_colon, skipWs_render, hv, strMk_data, skipWs_rbrace]
        | cons p ps =>
          obtain ⟨k2, v2⟩ := p
          have hvpos := nodes_pos v
          have hlt' := hlt
          simp only [nodesPairs] at hlt'
          have hpp : nodesPairs ((k2, v2) :: ps) = nodes v2 + nodesPairs ps := rfl
          have hv := ihv v (',' :: (renderPairs ((k2, v2) :: ps) ++ '}' :: rest))
            (by omega)
            (fun _ => numSafeB_punct _ (Or.inr (Or.inr rfl)))
          have hrec := iho ((k2, v2) :: ps) rest (by simp) (by omega)
          have hskip2 : skipWs (renderPairs ((k2, v2) :: ps) ++ '}' :: rest) =
              renderPairs ((k2, v2) :: ps) ++ '}' :: rest :=
            skipWs_renderPairs k2 v2 ps ('}' :: rest)
          have hshape : renderPairs ((k, v) :: (k2, v2) :: ps) ++ '}' :: rest =
              '"' :: (escBody k.data ++ '"' :: (':' ::
                (render v ++ ',' :: (renderPairs ((k2, v2) :: ps) ++ '}' :: rest)))) := by
            rw [renderPairs_cons2, renderStr]
            simp
          rw [hshape]
          simp only [readObjItems]
          rw [readStr_escBody]
          simp [skipWs_colon, skipWs_comma, skipWs_render, hv, hrec, hskip2, strMk_data]

/-! ## `jsonLoads` on rendered values -/

theorem jsonLoads_render (j : Json) : jsonLoads (render j) = some j := by
  have hfuel : nodes j ≤ (render j).length + 1 := by
    have := nodes_le_render j
    omega
  have h := (read_render ((render j).length + 1)).1 j [] hfuel (fun _ => rfl)
  rw [List.append_nil] at h
  have hskip : skipWs (render j) = render j := by
    have := skipWs_render j []
    simpa using this
  simp only [jsonLoads, hskip, h]
  rfl

theorem isNumC_obj_false (kvs : List (String × Json)) :
    Json.isNumC (.obj kvs) = false := rfl

theorem jsonLoads_render_obj_append (kvs : List (String × Json)) (q : List Char) :
    jsonLoads (render (.obj kvs) ++ q) =
      if skipWs q = [] then some (.obj kvs) else none := by
  have hfuel : nodes (Json.obj kvs) ≤ (render (.obj kvs) ++ q).length + 1 := by
    have h1 := nodes_le_render (.obj kvs)
    simp only [List.length_append]
    omega
  have h := (read_render ((render (.obj kvs) ++ q).length + 1)).1 (.obj kvs) q hfuel
    (fun hiso => by rw [isNumC_obj_false] at hiso; exact Bool.noConfusion hiso)
  simp only [jsonLoads, skipWs_render _ q, h]

theorem skipWs_ne_nil_of_mem {l : List Char} {c : Char} (hc : c ∈ l)
    (hw : jsonWs c = false) : skipWs l ≠ [] := by
  intro h
  have := skipWs_eq_nil_iff.mp h c hc
  rw [hw] at this
  exact Bool.noConfusion this

theorem proseChar_facts {c : Char} (h : proseChar c = true) :
    (c == '"') = false ∧ (c == '[') = false ∧ (c == '{') = false ∧
      c.isDigit = false ∧ (c == '-') = false ∧ (c == '}') = false ∧
      (c == ']') = false ∧ (c == '`') = false := by
  simp only [proseChar, Bool.not_eq_true', Bool.or_eq_false_iff] at h
  obtain ⟨⟨⟨⟨⟨⟨⟨h1, h2⟩, h3⟩, h4⟩, h5⟩, h6⟩, h7⟩, h8⟩ := h
  exact ⟨h5, h3, h1, h8, h7, h2, h4, h6⟩

theorem jsonLoads_prose_headed (c0 : Char) (p X : List Char)
    (hc0p : proseChar c0 = true)
    (hc0w : jsonWs c0 = false)
    (hpc : ∀ c ∈ p, proseChar c = true)
    (hX : '{' ∈ X) :
    jsonLoads (c0 :: p ++ X) = none := by
  obtain ⟨hq, hlb, hob, hdg, hmn, _, _, _⟩ := proseChar_facts hc0p
  simp only [jsonLoads, List.cons_append, skipWs_cons_of_not_ws hc0w]
  by_cases hnul : List.isPrefixOf ['n', 'u', 'l', 'l'] (c0 :: (p ++ X)) = true
  · obtain ⟨r, hr⟩ := List.isPrefixOf_iff_prefix.mp hnul
    have hmem : '{' ∈ 'u' :: 'l' :: 'l' :: r := by
      have h1 : '{' ∈ p ++ X := List.mem_append.mpr (Or.inr hX)
      have h2 : p ++ X = 'u' :: 'l' :: 'l' :: r := by
        have h3 := congrArg List.tail hr
        simp at h3
        exact h3.symm
      rw [← h2]
      exact h1
    have hmemr : '{' ∈ r := by
      simpa using hmem
    have hdrop : (c0 :: (p ++ X)).drop 4 = r := by
      rw [← hr]
      rfl
    have hne := skipWs_ne_nil_of_mem hmemr (by rfl)
    simp only [readVal, hnul, if_true, hdrop]
    simp [hne]
  · by_cases htru : List.isPrefixOf ['t', 'r', 'u', 'e'] (c0 :: (p ++ X)) = true
    · obtain ⟨r, hr⟩ := List.isPrefixOf_iff_prefix.mp htru
      have hmem : '{' ∈ 'r' :: 'u' :: 'e' :: r := by
        have h1 : '{' ∈ p ++ X := List.mem_append.mpr (Or.inr hX)
        have h2 : p ++ X = 'r' :: 'u' :: 'e' :: r := by
          have h3 := congrArg List.tail hr
          simp at h3
          exact h3.symm
        rw [← h2]
        exact h1
      have hmemr : '{' ∈ r := by
        simpa using hmem
      have hdrop : (c0 :: (p ++ X)).drop 4 = r := by
        rw [← hr]
        rfl
      have hne := skipWs_ne_nil_of_mem hmemr (by rfl)
      simp only [readVal, hnul, htru, if_true, Bool.false_eq_true, if_false, hdrop]
      simp [hne]
    · by_cases hfal : List.isPrefixOf ['f', 'a', 'l', 's', 'e'] (c0 :: (p ++ X)) = true
      · obtain ⟨r, hr⟩ := List.isPrefixOf_iff_prefix.mp hfal
        have hmem : '{' ∈ 'a' :: 'l' :: 's' :: 'e' :: r := by
          have h1 : '{' ∈ p ++ X := List.mem_append.mpr (Or.inr hX)
          have h2 : p ++ X = 'a' :: 'l' :: 's' :: 'e' :: r := by
            have h3 := congrArg List.tail hr
            simp at h3
            exact h3.symm
          rw [← h2]
          exact h1
        have hmemr : '{' ∈ r := by
          simpa using hmem
        have hdrop : (c0 :: (p ++ X)).drop 5 = r := by
          rw [← hr]
          rfl
        have hne := skipWs_ne_nil_of_mem hmemr (by rfl)
        simp only [readVal, hnul, htru, hfal, if_true, Bool.false_eq_true, if_false, hdrop]
        simp [hne]
      · simp only [readVal, hnul, htru, hfal, Bool.false_eq_true, if_false]
        simp [hq, hlb, hob, hdg, hmn]

/-! ## `pyStrip`, `splitNL` and newline-freedom of rendered values -/

theorem dropWhile_append_keep (pW : Char → Bool) (a b : List Char)
    (hb : ∀ c, b.head? = some c → pW c = false) (hbne : b ≠ []) :
    (a ++ b).dropWhile pW = a.dropWhile pW ++ b := by
  induction a with
  | nil =>
    cases b with
    | nil => exact absurd rfl hbne
    | cons c t => simp [List.dropWhile_cons, hb c rfl]
  | cons x xs ih =>
    by_cases hx : pW x = true
    · simp [List.dropWhile_cons, hx, ih]
    · simp only [Bool.not_eq_true] at hx
      simp [List.dropWhile_cons, hx]

theorem pyStrip_eq_self {l : List Char}
    (h1 : ∀ c, l.head? = some c → pyWs c = false)
    (h2 : ∀ c, l.getLast? = some c → pyWs c = false) : pyStrip l = l := by
  have ha : l.dropWhile pyWs = l := by
    cases l with
    | nil => rfl
    | cons c t => simp [List.dropWhile_cons, h1 c rfl]
  have hb : l.reverse.dropWhile pyWs = l.reverse := by
    cases hr : l.reverse with
    | nil => rfl
    | cons c t =>
      have : l.getLast? = some c := by
        rw [← List.head?_reverse, hr]
        rfl
      simp [List.dropWhile_cons, h2 c this]
  rw [pyStrip, ha, hb, List.reverse_reverse]

theorem pyStrip_sandwich (p s q : List Char) (hs : s ≠ [])
    (hsh : ∀ c, s.head? = some c → pyWs c = false)
    (hsl : ∀ c, s.getLast? = some c → pyWs c = false) :
    pyStrip (p ++ s ++ q) =
      p.dropWhile pyWs ++ s ++ (q.reverse.dropWhile pyWs).reverse := by
  obtain ⟨c0, s', hcs⟩ : ∃ c0 s', s = c0 :: s' := by
    cases s with
    | nil => exact absurd rfl hs
    | cons a t => exact ⟨a, t, rfl⟩
  have hc0 : pyWs c0 = false := hsh c0 (by rw [hcs]; rfl)
  obtain ⟨cl, sr', hrs⟩ : ∃ cl sr', s.reverse = cl :: sr' := by
    cases h : s.reverse with
    | nil => exact absurd (by simpa using congrArg List.reverse h) hs
    | cons a t => exact ⟨a, t, rfl⟩
  have hcl : pyWs cl = false := hsl cl (by rw [← List.head?_reverse, hrs]; rfl)
  have step1 : (p ++ s ++ q).dropWhile pyWs = p.dropWhile pyWs ++ (s ++ q) := by
    rw [List.append_assoc]
    apply dropWhile_append_keep
    · intro c hc
      rw [hcs] at hc
      simp at hc
      exact hc ▸ hc0
    · rw [hcs]
      simp
  rw [pyStrip, step1]
  have step2 : ((p.dropWhile pyWs ++ (s ++ q)).reverse).dropWhile pyWs
      = q.reverse.dropWhile pyWs ++ (s.reverse ++ (p.dropWhile pyWs).reverse) := by
    rw [List.reverse_append, List.reverse_append, List.append_assoc]
    apply dropWhile_append_keep
    · intro c hc
      rw [hrs] at hc
      simp at hc
      exact hc ▸ hcl
    · rw [hrs]
      simp
  rw [step2]
  simp [List.reverse_append, List.reverse_reverse, List.append_assoc]

theorem render_obj_eq (kvs : List (String × Json)) :
    render (.obj kvs) = '{' :: renderPairs kvs ++ ['}'] := rfl

theorem render_obj_head (kvs : List (String × Json)) :
    (render (.obj kvs)).head? = some '{' := by
  rw [render_obj_eq]
  rfl

theorem render_obj_getLast (kvs : List (String × Json)) :
    (render (.obj kvs)).getLast? = some '}' := by
  show ('{' :: (renderPairs kvs ++ ['}'])).getLast? = some '}'
  rw [← List.cons_append, List.getLast?_concat]

theorem render_obj_ne_nil (kvs : List (String × Json)) : render (.obj kvs) ≠ [] := by
  rw [render_obj_eq]
  simp

theorem pyStrip_render_obj (kvs : List (String × Json)) :
    pyStrip (render (.obj kvs)) = render (.obj kvs) := by
  apply pyStrip_eq_self
  · intro c hc
    rw [render_obj_head] at hc
    cases hc
    rfl
  · intro c hc
    rw [render_obj_getLast] at hc
    cases hc
    rfl

theorem isFence_render_obj (kvs : List (String × Json)) :
    isFence (render (.obj kvs)) = false := by
  rw [render_obj_eq]
  rfl

/-! ## Rendered values contain no newline -/

theorem escChar_no_nl (c x : Char) (hx : x ∈ escChar c) : ¬x = '\n' := by
  by_cases h1 : c = '"'
  · subst h1
    simp [escChar] at hx
    rcases hx with rfl | rfl <;> decide
  · by_cases h2 : c = '\\'
    · subst h2
      simp [escChar] at hx
      rcases hx with rfl | rfl <;> decide
    · by_cases h3 : c = '\n'
      · subst h3
        simp [escChar] at hx
        rcases hx with rfl | rfl <;> decide
      · have : escChar c = [c] := by simp [escChar, h1, h2, h3]
        rw [this] at hx
        simp at hx
        exact hx ▸ h3

theorem escBody_no_nl (cs : List Char) (x : Char) (hx : x ∈ escBody cs) : ¬x = '\n' := by
  induction cs with
  | nil => simp [escBody] at hx
  | cons c t ih =>
    rw [escBody_cons] at hx
    rcases List.mem_append.mp hx with h | h
    · exact escChar_no_nl c x h
    · exact ih h

theorem renderStr_no_nl (cs : List Char) (x : Char) (hx : x ∈ renderStr cs) : ¬x = '\n' := by
  rw [renderStr] at hx
  rcases List.mem_cons.mp hx with rfl | h
  · decide
  · rcases List.mem_append.mp h with h2 | h2
    · exact escBody_no_nl cs x h2
    · have : x = '"' := by simpa using h2
      subst this
      decide

theorem renderNum_chars (m : Int) (e : Nat) (x : Char) (hx : x ∈ renderNum m e) :
    x.isDigit = true ∨ x = '-' ∨ x = '.' := by
  rw [renderNum] at hx
  rcases List.mem_append.mp hx with h | h
  · split at h
    · have : x = '-' := by simpa using h
      exact Or.inr (Or.inl this)
    · simp at h
  · split at h
    · exact Or.inl (padDigits_all_digits _ _ x h)
    · rcases List.mem_append.mp h with h2 | h2
      · exact Or.inl (padDigits_all_digits _ _ x (List.mem_of_mem_take h2))
      · rcases List.mem_cons.mp h2 with rfl | h3
        · exact Or.inr (Or.inr rfl)
        · exact Or.inl (padDigits_all_digits _ _ x (List.mem_of_mem_drop h3))

theorem renderNum_no_nl (m : Int) (e : Nat) (x : Char) (hx : x ∈ renderNum m e) :
    ¬x = '\n' := by
  rcases renderNum_chars m e x hx with hd | rfl | rfl
  · intro h
    subst h
    exact absurd hd (by decide)
  · decide
  · decide

mutual

theorem render_no_nl : ∀ (j : Json), '\n' ∉ render j
  | .null => by decide
  | .bool b => by cases b <;> decide
  | .num m e => fun h => renderNum_no_nl m e '\n' h rfl
  | .str sv => fun h => renderStr_no_nl sv.data '\n' h rfl
  | .arr xs => by
    intro h
    rcases List.mem_cons.mp h with h1 | h1
    · exact absurd h1.symm (by decide)
    · rcases List.mem_append.mp h1 with h2 | h2
      · exact renderItems_no_nl xs h2
      · simp at h2
  | .obj kvs => by
    intro h
    rcases List.mem_cons.mp h with h1 | h1
    · exact absurd h1.symm (by decide)
    · rcases List.mem_append.mp h1 with h2 | h2
      · exact renderPairs_no_nl kvs h2
      · simp at h2

theorem renderItems_no_nl : ∀ (xs : List Json), '\n' ∉ renderItems xs
  | [] => by simp [renderItems]
  | [x] => by
    rw [renderItems_single]
    exact render_no_nl x
  | x :: y :: ys => by
    rw [renderItems_cons2]
    intro h
    rcases List.mem_append.mp h with h1 | h1
    · exact render_no_nl x h1
    · rcases List.mem_cons.mp h1 with h2 | h2
      · exact absurd h2 (by decide)
      · exact renderItems_no_nl (y :: ys) h2

theorem renderPairs_no_nl : ∀ (kvs : List (String × Json)), '\n' ∉ renderPairs kvs
  | [] => by simp [renderPairs]
  | [(k, v)] => by
    rw [renderPairs_single]
    intro h
    rcases List.mem_append.mp h with h1 | h1
    · exact renderStr_no_nl k.data '\n' h1 rfl
    · rcases List.mem_cons.mp h1 with h2 | h2
      · exact absurd h2 (by decide)
      · exact render_no_nl v h2
  | (k, v) :: p :: ps => by
    rw [renderPairs_cons2]
    intro h
    rcases List.mem_append.mp h with h1 | h1
    · rcases List.mem_append.mp h1 with h2 | h2
      · exact renderStr_no_nl k.data '\n' h2 rfl
      · rcases List.mem_cons.mp h2 with h3 | h3
        · exact absurd h3 (by decide)
        · exact render_no_nl v h3
    · rcases List.mem_cons.mp h1 with h2 | h2
      · exact absurd h2 (by decide)
      · exact renderPairs_no_nl (p :: ps) h2

end

/-! ## `splitNL` and `joinNL` -/

theorem splitNL_no_nl (a : List Char) (h : '\n' ∉ a) : splitNL a = [a] := by
  induction a with
  | nil => rfl
  | cons c t ih =>
    have hc : (c == '\n') = false := beq_false_of_ne (fun hh => h (by simp [hh]))
    have ht : '\n' ∉ t := fun hh => h (by simp [hh])
    simp [splitNL, hc, ih ht]

theorem splitNL_append (a b : List Char) (h : '\n' ∉ a) :
    splitNL (a ++ '\n' :: b) = a :: splitNL b := by
  induction a with
  | nil => simp [splitNL]
  | cons c t ih =>
    have hc : (c == '\n') = false := beq_false_of_ne (fun hh => h (by simp [hh]))
    have ht : '\n' ∉ t := fun hh => h (by simp [hh])
    simp [splitNL, hc, ih ht]

theorem joinNL_single (l : List Char) : joinNL [l] = l := rfl

/-! ## Head of a `dropWhile` result, whitespace classes -/

theorem dropWhile_head_false (pW : Char → Bool) (l : List Char) {c : Char} {t : List Char}
    (h : l.dropWhile pW = c :: t) : pW c = false := by
  induction l with
  | nil => simp at h
  | cons a l' ih =>
    by_cases ha : pW a = true
    · rw [List.dropWhile_cons, if_pos ha] at h
      exact ih h
    · simp only [Bool.not_eq_true] at ha
      rw [List.dropWhile_cons, ha] at h
      simp at h
      obtain ⟨rfl, _⟩ := h
      exact ha

theorem jsonWs_false_of_pyWs_false {c : Char} (h : pyWs c = false) : jsonWs c = false := by
  by_contra hj
  simp only [Bool.not_eq_false] at hj
  rw [pyWs, hj] at h
  simp at h

/-! ## The first-`{`-to-last-`}` recovery on a sandwiched object -/

theorem pyFind_sandwich (p1 X : List Char)
    (hp1 : ∀ c ∈ p1, (c == '{') = false) (hX : X.head? = some '{') :
    pyFind '{' (p1 ++ X) = (p1.length : Int) := by
  rw [pyFind, List.findIdx?_append]
  have h1 : p1.findIdx? (· == '{') = none := List.findIdx?_eq_none_iff.mpr hp1
  have h2 : X.findIdx? (· == '{') = some 0 := by
    cases X with
    | nil => simp at hX
    | cons a t =>
      have ha : a = '{' := by simpa using hX
      simp [List.findIdx?, ha]
  rw [h1, h2]
  simp [Option.or]

theorem pyRFind_sandwich (p1 s q1 : List Char)
    (hq1 : ∀ c ∈ q1, (c == '}') = false) (hs : s.getLast? = some '}') :
    pyRFind '}' (p1 ++ s ++ q1) = (p1.length : Int) + s.length - 1 := by
  rw [pyRFind]
  rw [List.reverse_append, List.reverse_append, List.findIdx?_append]
  have h1 : q1.reverse.findIdx? (· == '}') = none :=
    List.findIdx?_eq_none_iff.mpr (fun c hc => hq1 c (List.mem_reverse.mp hc))
  have h2 : (s.reverse ++ p1.reverse).findIdx? (· == '}') = some 0 := by
    cases hrs : s.reverse with
    | nil =>
      have : s = [] := by simpa using congrArg List.reverse hrs
      rw [this] at hs
      simp at hs
    | cons a t =>
      have ha : a = '}' := by
        have := hs
        rw [← List.head?_reverse, hrs] at this
        simpa using this
      simp [List.findIdx?, ha]
  rw [h1, h2]
  simp [List.length_append, List.length_reverse]
  omega

theorem pySlice_sandwich (p1 s q1 : List Char) (hlen : 0 < s.length) :
    pySlice (p1 ++ s ++ q1) (p1.length : Int) ((p1.length : Int) + s.length - 1 + 1) = s := by
  rw [pySlice]
  have h1 : ((p1.length : Int)).toNat = p1.length := by omega
  have h2 : ((p1.length : Int) + s.length - 1 + 1 - p1.length).toNat = s.length := by omega
  rw [h1, h2]
  rw [List.append_assoc, List.drop_left, List.take_left]

/-! ## `normalizeReply` on the three reply forms of claim C2 -/

theorem normalizeReply_bare (kvs : List (String × Json)) :
    normalizeReply (render (.obj kvs)) = .ok (.obj kvs) := by
  simp only [normalizeReply, pyStrip_render_obj, isFence_render_obj, Bool.false_eq_true,
    if_false, jsonLoads_render]

theorem normalizeReply_fenced (kvs : List (String × Json)) :
    normalizeReply (['`', '`', '`', 'j', 's', 'o', 'n', '\n'] ++ render (.obj kvs) ++
      ['\n', '`', '`', '`']) = .ok (.obj kvs) := by
  have hnl : '\n' ∉ render (.obj kvs) := render_no_nl (.obj kvs)
  have hhead : ∀ c, (['`', '`', '`', 'j', 's', 'o', 'n', '\n'] ++ render (.obj kvs) ++
      ['\n', '`', '`', '`']).head? = some c → pyWs c = false := by
    intro c hc
    have h0 : (['`', '`', '`', 'j', 's', 'o', 'n', '\n'] ++ render (.obj kvs) ++
        ['\n', '`', '`', '`']).head? = some '`' := rfl
    rw [h0] at hc
    cases hc
    rfl
  have hlastEq : ['`', '`', '`', 'j', 's', 'o', 'n', '\n'] ++ render (.obj kvs) ++
      ['\n', '`', '`', '`'] =
      (['`', '`', '`', 'j', 's', 'o', 'n', '\n'] ++ render (.obj kvs) ++
        ['\n', '`', '`']) ++ ['`'] := by
    simp
  have hlast : ∀ c, (['`', '`', '`', 'j', 's', 'o', 'n', '\n'] ++ render (.obj kvs) ++
      ['\n', '`', '`', '`']).getLast? = some c → pyWs c = false := by
    intro c hc
    rw [hlastEq, List.getLast?_concat] at hc
    cases hc
    rfl
  have hstrip := pyStrip_eq_self hhead hlast
  have hfence : isFence (['`', '`', '`', 'j', 's', 'o', 'n', '\n'] ++ render (.obj kvs) ++
      ['\n', '`', '`', '`']) = true := rfl
  have hform : ['`', '`', '`', 'j', 's', 'o', 'n', '\n'] ++ render (.obj kvs) ++
      ['\n', '`', '`', '`'] =
      ['`', '`', '`', 'j', 's', 'o', 'n'] ++ '\n' :: (render (.obj kvs) ++ '\n' :: ['`', '`', '`']) := by
    simp
  have hsplit : splitNL (['`', '`', '`', 'j', 's', 'o', 'n', '\n'] ++ render (.obj kvs) ++
      ['\n', '`', '`', '`']) =
      [['`', '`', '`', 'j', 's', 'o', 'n'], render (.obj kvs), ['`', '`', '`']] := by
    rw [hform, splitNL_append _ _ (by decide), splitNL_append _ _ hnl,
      splitNL_no_nl _ (by decide)]
  have hf1 : (!isFence (pyStrip ['`', '`', '`', 'j', 's', 'o', 'n'])) = false := by decide
  have hf2 : (!isFence (pyStrip (render (.obj kvs)))) = true := by
    rw [pyStrip_render_obj, isFence_render_obj]
    rfl
  have hf3 : (!isFence (pyStrip ['`', '`', '`'])) = false := by decide
  simp only [normalizeReply, hstrip, hfence, if_true, hsplit, List.filter_cons, hf1, hf2,
    hf3, Bool.false_eq_true, if_false, List.filter_nil, joinNL_single, jsonLoads_render]

theorem normalizeReply_prose (kvs : List (String × Json)) (p q : List Char)
    (hp : ∀ c ∈ p, proseChar c = true) (hq : ∀ c ∈ q, proseChar c = true) :
    normalizeReply (p ++ render (.obj kvs) ++ q) = .ok (.obj kvs) := by
  have hsne := render_obj_ne_nil kvs
  have hpos : 0 < (render (.obj kvs)).length := List.length_pos.mpr hsne
  have hshead : ∀ c, (render (.obj kvs)).head? = some c → pyWs c = false := by
    intro c hc
    rw [render_obj_head] at hc
    cases hc
    rfl
  have hslast : ∀ c, (render (.obj kvs)).getLast? = some c → pyWs c = false := by
    intro c hc
    rw [render_obj_getLast] at hc
    cases hc
    rfl
  have hstrip := pyStrip_sandwich p (render (.obj kvs)) q hsne hshead hslast
  have hp1mem : ∀ c ∈ p.dropWhile pyWs, proseChar c = true := fun c hc =>
    hp c ((List.dropWhile_sublist _).subset hc)
  have hq1mem : ∀ c ∈ ((q.reverse.dropWhile pyWs).reverse), proseChar c = true := by
    intro c hc
    exact hq c (List.mem_reverse.mp ((List.dropWhile_sublist _).subset (List.mem_reverse.mp hc)))
  have hq1brace : ∀ c ∈ ((q.reverse.dropWhile pyWs).reverse), (c == '}') = false :=
    fun c hc => (proseChar_facts (hq1mem c hc)).2.2.2.2.2.1
  have hXhead : (render (.obj kvs) ++ (q.reverse.dropWhile pyWs).reverse).head? = some '{' := by
    rw [render_obj_eq]
    rfl
  have hbrace : '{' ∈ render (.obj kvs) ++ (q.reverse.dropWhile pyWs).reverse := by
    rw [render_obj_eq]
    simp
  cases hp1shape : p.dropWhile pyWs with
  | nil =>
    have hclean : pyStrip (p ++ render (.obj kvs) ++ q) =
        render (.obj kvs) ++ (q.reverse.dropWhile pyWs).reverse := by
      rw [hstrip, hp1shape]
      simp
    have hfence : isFence (render (.obj kvs) ++ (q.reverse.dropWhile pyWs).reverse) = false := by
      rw [render_obj_eq]
      rfl
    have hload := jsonLoads_render_obj_append kvs ((q.reverse.dropWhile pyWs).reverse)
    by_cases hqe : skipWs ((q.reverse.dropWhile pyWs).reverse) = []
    · simp only [normalizeReply, hclean, hfence, Bool.false_eq_true, if_false, hload, hqe,
        if_true]
    · have hfind : pyFind '{' (render (.obj kvs) ++ (q.reverse.dropWhile pyWs).reverse)
          = (0 : Int) := by
        have h0 := pyFind_sandwich []
          (render (.obj kvs) ++ (q.reverse.dropWhile pyWs).reverse) (by simp) hXhead
        simpa using h0
      have hrfind : pyRFind '}' (render (.obj kvs) ++ (q.reverse.dropWhile pyWs).reverse)
          = (0 : Int) + (render (.obj kvs)).length - 1 := by
        have h0 := pyRFind_sandwich [] (render (.obj kvs))
          ((q.reverse.dropWhile pyWs).reverse) hq1brace (render_obj_getLast kvs)
        simpa using h0
      have hslice : pySlice (render (.obj kvs) ++ (q.reverse.dropWhile pyWs).reverse)
          (0 : Int) ((0 : Int) + (render (.obj kvs)).length - 1 + 1) = render (.obj kvs) := by
        have h0 := pySlice_sandwich [] (render (.obj kvs))
          ((q.reverse.dropWhile pyWs).reverse) hpos
        simpa using h0
      have hcond : (0 : Int) ≤ 0 ∧ (0 : Int) < 0 + (render (.obj kvs)).length - 1 + 1 :=
        ⟨le_refl _, by omega⟩
      simp only [normalizeReply, hclean, hfence, Bool.false_eq_true, if_false, hload, hqe,
        hfind, hrfind, if_pos hcond, hslice, jsonLoads_render]
  | cons c0 p'' =>
    have hdw : p.dropWhile pyWs = c0 :: p'' := hp1shape
    have hc0pw : pyWs c0 = false := dropWhile_head_false pyWs p hdw
    have hc0w : jsonWs c0 = false := jsonWs_false_of_pyWs_false hc0pw
    have hc0prose : proseChar c0 = true := hp1mem c0 (by rw [hdw]; exact List.mem_cons_self _ _)
    have hp''mem : ∀ c ∈ p'', proseChar c = true := fun c hc =>
      hp1mem c (by rw [hdw]; exact List.mem_cons_of_mem _ hc)
    have hp1brace : ∀ c ∈ c0 :: p'', (c == '{') = false := by
      intro c hc
      rcases List.mem_cons.mp hc with rfl | hc2
      · exact (proseChar_facts hc0prose).2.2.1
      · exact (proseChar_facts (hp''mem c hc2)).2.2.1
    have hclean : pyStrip (p ++ render (.obj kvs) ++ q) =
        (c0 :: p'') ++ render (.obj kvs) ++ (q.reverse.dropWhile pyWs).reverse := by
      rw [hstrip, hp1shape]
    have hfence : isFence ((c0 :: p'') ++ render (.obj kvs) ++
        (q.reverse.dropWhile pyWs).reverse) = false := by
      have hbq : ('`' == c0) = false := by
        apply beq_false_of_ne
        intro h
        have h2 := (proseChar_facts hc0prose).2.2.2.2.2.2.2
        rw [← h] at h2
        simp at h2
      simp [isFence, List.isPrefixOf, hbq]
    have hdirect : jsonLoads ((c0 :: p'') ++ render (.obj kvs) ++
        (q.reverse.dropWhile pyWs).reverse) = none := by
      rw [List.append_assoc]
      exact jsonLoads_prose_headed c0 p'' _ hc0prose hc0w hp''mem hbrace
    have hfind : pyFind '{' ((c0 :: p'') ++ render (.obj kvs) ++
        (q.reverse.dropWhile pyWs).reverse) = ((c0 :: p'').length : Int) := by
      rw [List.append_assoc]
      exact pyFind_sandwich (c0 :: p'') _ hp1brace hXhead
    have hrfind := pyRFind_sandwich (c0 :: p'') (render (.obj kvs))
      ((q.reverse.dropWhile pyWs).reverse) hq1brace (render_obj_getLast kvs)
    have hslice := pySlice_sandwich (c0 :: p'') (render (.obj kvs))
      ((q.reverse.dropWhile pyWs).reverse) hpos
    have hcond : (0 : Int) ≤ ((c0 :: p'').length : Int) ∧
        (((c0 :: p'').length : Int)) < ((c0 :: p'').length : Int) +
          (render (.obj kvs)).length - 1 + 1 := ⟨by positivity, by omega⟩
    simp only [normalizeReply, hclean, hfence, Bool.false_eq_true, if_false, hdirect,
      hfind, hrfind, if_pos hcond, hslice, jsonLoads_render]

/-! # Claim theorems -/

/-- C1 (code_bug): the claim says that for every model reply with
unrecoverable JSON, `parse_document` fails with the 502 `BackendError` and
never raises an exception of any other type.  The code violates this: when
the first-`{`-to-last-`}` substring exists but still fails to parse, the
`json.loads` call on line 489 of src/main.py runs inside the
`except json.JSONDecodeError:` handler, so its `JSONDecodeError`
propagates uncaught (surfaced by the framework as a 500, not a 502).  At
the reply `"{not json}"` the normalizer takes exactly that path; the 502
is raised only when no brace-delimited substring exists, as at
`"no json here"`. -/
theorem C1_unrecoverable_reply_bug_eval :
    normalizeReply ("{not json}".data) = NormResult.jsonDecodeError ∧
    normalizeReply ("no json here".data) = NormResult.backendError502 := by
  constructor
  · rfl
  · rfl

/-- C2 (confirmed): for every JSON object `J` (here `Json.obj kvs`,
serialized by `render`), the normalization step of `parse_document`
recovers the same parsed object whether the model reply is (a) the bare
serialization, (b) that serialization wrapped in markdown code fences, or
(c) that serialization embedded in surrounding prose (text without
braces, brackets, quotes, backticks, digits or minus signs) with no other
`{` before it or `}` after it. -/
theorem C2_normalizer_recovers_same_object (kvs : List (String × Json)) (p q : List Char)
    (hp : ∀ c ∈ p, proseChar c = true) (hq : ∀ c ∈ q, proseChar c = true) :
    normalizeReply (render (.obj kvs)) = .ok (.obj kvs) ∧
    normalizeReply (['`', '`', '`', 'j', 's', 'o', 'n', '\n'] ++ render (.obj kvs) ++
      ['\n', '`', '`', '`']) = .ok (.obj kvs) ∧
    normalizeReply (p ++ render (.obj kvs) ++ q) = .ok (.obj kvs) :=
  ⟨normalizeReply_bare kvs, normalizeReply_fenced kvs, normalizeReply_prose kvs p q hp hq⟩

/-- Witness for C2 at a concrete object and concrete prose. -/
theorem C2_normalizer_witness :
    normalizeReply ("The model said: ".data ++ render (.obj [("a", .num 1 0)]) ++
      " Thanks!".data) = .ok (.obj [("a", .num 1 0)]) :=
  (C2_normalizer_recovers_same_object [("a", .num 1 0)] ("The model said: ".data)
    (" Thanks!".data) (by decide) (by decide)).2.2

/-! ## Validator inversion machinery -/

theorem exBind_ok {α β : Type} {x : Except String α} {f : α → Except String β} {r : β}
    (h : (x >>= f) = .ok r) : ∃ a, x = .ok a ∧ f a = .ok r := by
  cases x with
  | ok a => exact ⟨a, rfl, h⟩
  | error e => exact absurd h (by simp [Bind.bind, Except.bind])

theorem okInj {ε α : Type} {a b : α} (h : (Except.ok a : Except ε α) = .ok b) : a = b := by
  injection h

theorem vElems_ok_mem {α : Type} {f : Json → Except String α} {xs : List Json} {ys : List α}
    (h : vElems f xs = .ok ys) {x : Json} (hx : x ∈ xs) : ∃ a, f x = .ok a := by
  induction xs generalizing ys with
  | nil => simp at hx
  | cons z zs ih =>
    rw [vElems] at h
    cases hfz : f z with
    | error e =>
      rw [hfz] at h
      exact absurd h (by simp)
    | ok a =>
      rw [hfz] at h
      cases hvz : vElems f zs with
      | error e =>
        rw [hvz] at h
        exact absurd h (by simp)
      | ok ys2 =>
        rcases List.mem_cons.mp hx with rfl | hx2
        · exact ⟨a, hfz⟩
        · exact ih hvz hx2

theorem vBOLContainer_ok {ekvs : List (String × Json)} {a : BOLContainer}
    (h : vBOLContainer (.obj ekvs) = .ok a) :
    vOptFloat (jGet ekvs "weight_kg") = .ok a.weight_kg := by
  simp only [vBOLContainer] at h
  obtain ⟨a1, h1, h⟩ := exBind_ok h
  obtain ⟨a2, h2, h⟩ := exBind_ok h
  obtain ⟨a3, h3, h⟩ := exBind_ok h
  obtain ⟨a4, h4, h⟩ := exBind_ok h
  obtain ⟨a5, h5, h⟩ := exBind_ok h
  injection h with h
  subst h
  exact h5

theorem vInvoiceLineItem_ok_desc {ekvs : List (String × Json)} {a : InvoiceLineItem}
    (h : vInvoiceLineItem (.obj ekvs) = .ok a) :
    vStrReq (jGet ekvs "description") = .ok a.description := by
  simp only [vInvoiceLineItem] at h
  obtain ⟨a1, h1, h⟩ := exBind_ok h
  obtain ⟨a2, h2, h⟩ := exBind_ok h
  obtain ⟨a3, h3, h⟩ := exBind_ok h
  obtain ⟨a4, h4, h⟩ := exBind_ok h
  obtain ⟨a5, h5, h⟩ := exBind_ok h
  injection h with h
  subst h
  exact h1

theorem bol_validate_ok_fields {kvs : List (String × Json)} {r : BOLResponse}
    (h : BOLResponse.validate (.obj kvs) = .ok r) :
    vOptStr (jGet kvs "bol_number") = .ok r.bol_number ∧
    vOptStr (jGet kvs "booking_number") = .ok r.booking_number ∧
    vOptParty (jGet kvs "shipper") = .ok r.shipper ∧
    vOptParty (jGet kvs "consignee") = .ok r.consignee ∧
    vOptParty (jGet kvs "notify_party") = .ok r.notify_party ∧
    vOptStr (jGet kvs "carrier") = .ok r.carrier ∧
    vOptStr (jGet kvs "vessel_name") = .ok r.vessel_name ∧
    vOptStr (jGet kvs "voyage_number") = .ok r.voyage_number ∧
    vOptStr (jGet kvs "port_of_loading") = .ok r.port_of_loading ∧
    vOptStr (jGet kvs "port_of_discharge") = .ok r.port_of_discharge ∧
    vOptStr (jGet kvs "place_of_delivery") = .ok r.place_of_delivery ∧
    vOptStr (jGet kvs "date_of_issue") = .ok r.date_of_issue ∧
    vOptStr (jGet kvs "shipped_on_board_date") = .ok r.shipped_on_board_date ∧
    vListOf vBOLContainer (jGet kvs "containers") = .ok r.containers ∧
    vOptStr (jGet kvs "commodity_description") = .ok r.commodity_description ∧
    vOptFloat (jGet kvs "gross_weight_kg") = .ok r.gross_weight_kg ∧
    vOptInt (jGet kvs "number_of_packages") = .ok r.number_of_packages ∧
    vOptStr (jGet kvs "package_type") = .ok r.package_type ∧
    vOptStr (jGet kvs "freight_terms") = .ok r.freight_terms ∧
    vListStr (jGet kvs "hs_codes") = .ok r.hs_codes ∧
    vFloatDefault 0 (jGet kvs "confidence") = .ok r.confidence ∧
    vListStr (jGet kvs "warnings") = .ok r.warnings := by
  simp only [BOLResponse.validate] at h
  obtain ⟨a1, h1, h⟩ := exBind_ok h
  obtain ⟨a2, h2, h⟩ := exBind_ok h
  obtain ⟨a3, h3, h⟩ := exBind_ok h
  obtain ⟨a4, h4, h⟩ := exBind_ok h
  obtain ⟨a5, h5, h⟩ := exBind_ok h
  obtain ⟨a6, h6, h⟩ := exBind_ok h
  obtain ⟨a7, h7, h⟩ := exBind_ok h
  obtain ⟨a8, h8, h⟩ := exBind_ok h
  obtain ⟨a9, h9, h⟩ := exBind_ok h
  obtain ⟨a10, h10, h⟩ := exBind_ok h
  obtain ⟨a11, h11, h⟩ := exBind_ok h
  obtain ⟨a12, h12, h⟩ := exBind_ok h
  obtain ⟨a13, h13, h⟩ := exBind_ok h
  obtain ⟨a14, h14, h⟩ := exBind_ok h
  obtain ⟨a15, h15, h⟩ := exBind_ok h
  obtain ⟨a16, h16, h⟩ := exBind_ok h
  obtain ⟨a17, h17, h⟩ := exBind_ok h
  obtain ⟨a18, h18, h⟩ := exBind_ok h
  obtain ⟨a19, h19, h⟩ := exBind_ok h
  obtain ⟨a20, h20, h⟩ := exBind_ok h
  obtain ⟨a21, h21, h⟩ := exBind_ok h
  obtain ⟨a22, h22, h⟩ := exBind_ok h
  injection h with h
  subst h
  exact ⟨h1, h2, h3, h4, h5, h6, h7, h8, h9, h10, h11, h12, h13, h14, h15, h16, h17,
    h18, h19, h20, h21, h22⟩

theorem invoice_validate_ok_fields {kvs : List (String × Json)} {r : FreightInvoiceResponse}
    (h : FreightInvoiceResponse.validate (.obj kvs) = .ok r) :
    vOptStr (jGet kvs "invoice_number") = .ok r.invoice_number ∧
    vOptStr (jGet kvs "invoice_date") = .ok r.invoice_date ∧
    vOptStr (jGet kvs "due_date") = .ok r.due_date ∧
    vOptStr (jGet kvs "vendor_name") = .ok r.vendor_name ∧
    vOptStr (jGet kvs "vendor_address") = .ok r.vendor_address ∧
    vOptStr (jGet kvs "bill_to_name") = .ok r.bill_to_name ∧
    vOptStr (jGet kvs "bill_to_address") = .ok r.bill_to_address ∧
    vListStr (jGet kvs "bol_references") = .ok r.bol_references ∧
    vListStr (jGet kvs "container_references") = .ok r.container_references ∧
    vListStr (jGet kvs "po_references") = .ok r.po_references ∧
    vListOf vInvoiceLineItem (jGet kvs "line_items") = .ok r.line_items ∧
    vOptFloat (jGet kvs "subtotal") = .ok r.subtotal ∧
    vOptFloat (jGet kvs "tax") = .ok r.tax ∧
    vOptFloat (jGet kvs "total") = .ok r.total ∧
    vOptStr (jGet kvs "currency") = .ok r.currency ∧
    vOptStr (jGet kvs "payment_terms") = .ok r.payment_terms ∧
    vOptDict (jGet kvs "charge_breakdown") = .ok r.charge_breakdown ∧
    vFloatDefault 0 (jGet kvs "confidence") = .ok r.confidence ∧
    vListStr (jGet kvs "warnings") = .ok r.warnings := by
  simp only [FreightInvoiceResponse.validate] at h
  obtain ⟨a1, h1, h⟩ := exBind_ok h
  obtain ⟨a2, h2, h⟩ := exBind_ok h
  obtain ⟨a3, h3, h⟩ := exBind_ok h
  obtain ⟨a4, h4, h⟩ := exBind_ok h
  obtain ⟨a5, h5, h⟩ := exBind_ok h
  obtain ⟨a6, h6, h⟩ := exBind_ok h
  obtain ⟨a7, h7, h⟩ := exBind_ok h
  obtain ⟨a8, h8, h⟩ := exBind_ok h
  obtain ⟨a9, h9, h⟩ := exBind_ok h
  obtain ⟨a10, h10, h⟩ := exBind_ok h
  obtain ⟨a11, h11, h⟩ := exBind_ok h
  obtain ⟨a12, h12, h⟩ := exBind_ok h
  obtain ⟨a13, h13, h⟩ := exBind_ok h
  obtain ⟨a14, h14, h⟩ := exBind_ok h
  obtain ⟨a15, h15, h⟩ := exBind_ok h
  obtain ⟨a16, h16, h⟩ := exBind_ok h
  obtain ⟨a17, h17, h⟩ := exBind_ok h
  obtain ⟨a18, h18, h⟩ := exBind_ok h
  obtain ⟨a19, h19, h⟩ := exBind_ok h
  injection h with h
  subst h
  exact ⟨h1, h2, h3, h4, h5, h6, h7, h8, h9, h10, h11, h12, h13, h14, h15, h16, h17,
    h18, h19⟩

theorem packing_validate_ok_fields {kvs : List (String × Json)} {r : PackingListResponse}
    (h : PackingListResponse.validate (.obj kvs) = .ok r) :
    vOptStr (jGet kvs "packing_list_number") = .ok r.packing_list_number ∧
    vOptStr (jGet kvs "date") = .ok r.date ∧
    vOptStr (jGet kvs "shipper") = .ok r.shipper ∧
    vOptStr (jGet kvs "consignee") = .ok r.consignee ∧
    vListStr (jGet kvs "po_references") = .ok r.po_references ∧
    vListStr (jGet kvs "invoice_references") = .ok r.invoice_references ∧
    vListOf vPackingListItem (jGet kvs "items") = .ok r.items ∧
    vOptInt (jGet kvs "total_packages") = .ok r.total_packages ∧
    vOptFloat (jGet kvs "total_gross_weight_kg") = .ok r.total_gross_weight_kg ∧
    vOptFloat (jGet kvs "total_net_weight_kg") = .ok r.total_net_weight_kg ∧
    vOptFloat (jGet kvs "total_volume_cbm") = .ok r.total_volume_cbm ∧
    vFloatDefault 0 (jGet kvs "confidence") = .ok r.confidence ∧
    vListStr (jGet kvs "warnings") = .ok r.warnings := by
  simp only [PackingListResponse.validate] at h
  obtain ⟨a1, h1, h⟩ := exBind_ok h
  obtain ⟨a2, h2, h⟩ := exBind_ok h
  obtain ⟨a3, h3, h⟩ := exBind_ok h
  obtain ⟨a4, h4, h⟩ := exBind_ok h
  obtain ⟨a5, h5, h⟩ := exBind_ok h
  obtain ⟨a6, h6, h⟩ := exBind_ok h
  obtain ⟨a7, h7, h⟩ := exBind_ok h
  obtain ⟨a8, h8, h⟩ := exBind_ok h
  obtain ⟨a9, h9, h⟩ := exBind_ok h
  obtain ⟨a10, h10, h⟩ := exBind_ok h
  obtain ⟨a11, h11, h⟩ := exBind_ok h
  obtain ⟨a12, h12, h⟩ := exBind_ok h
  obtain ⟨a13, h13, h⟩ := exBind_ok h
  injection h with h
  subst h
  exact ⟨h1, h2, h3, h4, h5, h6, h7, h8, h9, h10, h11, h12, h13⟩

/-- Absent field implies the declared default: if a validator maps `none` to
`.ok d` and the field's lookup is `none`, a successful validation carries `d`. -/
theorem absDef {α : Type} {f : Option Json → Except String α} {o : Option Json} {b d : α}
    (h : f o = .ok b) (hf : f none = .ok d) (ho : o = none) : b = d := by
  rw [ho, hf] at h
  exact (okInj h).symm

/-- C3: a recovered JSON object carrying a wrongly shaped field — a
`containers` entry whose `weight_kg` is a non-numeric string, or a
`line_items` entry missing its required `description` — makes the whole
record construction fail: `validate` never returns `.ok`, so no partially
populated record exists. -/
theorem C3_wrong_shape_rejected :
    (∀ kvs l ekvs sv r, jGet kvs "containers" = some (.arr l) →
      Json.obj ekvs ∈ l → jGet ekvs "weight_kg" = some (.str sv) →
      floatOfStr sv = none → BOLResponse.validate (.obj kvs) ≠ .ok r) ∧
    (∀ kvs l ekvs r, jGet kvs "line_items" = some (.arr l) →
      Json.obj ekvs ∈ l → jGet ekvs "description" = none →
      FreightInvoiceResponse.validate (.obj kvs) ≠ .ok r) := by
  constructor
  · intro kvs l ekvs sv r hcont hmem hw hfl hok
    obtain ⟨-, -, -, -, -, -, -, -, -, -, -, -, -, h14, -, -, -, -, -, -, -, -⟩ :=
      bol_validate_ok_fields hok
    rw [hcont] at h14
    simp only [vListOf] at h14
    obtain ⟨a, ha⟩ := vElems_ok_mem h14 hmem
    have hwf := vBOLContainer_ok ha
    rw [hw] at hwf
    simp [vOptFloat, hfl] at hwf
  · intro kvs l ekvs r hli hmem hdesc hok
    obtain ⟨-, -, -, -, -, -, -, -, -, -, h11, -, -, -, -, -, -, -, -⟩ :=
      invoice_validate_ok_fields hok
    rw [hli] at h11
    simp only [vListOf] at h11
    obtain ⟨a, ha⟩ := vElems_ok_mem h11 hmem
    have hd := vInvoiceLineItem_ok_desc ha
    rw [hdesc] at hd
    simp [vStrReq] at hd

/-- Witness for C3 at a concrete wrongly shaped payload. -/
theorem C3_wrong_shape_rejected_witness :
    BOLResponse.validate
      (.obj [("containers", Json.arr [Json.obj [("weight_kg", Json.str "heavy")]])]) ≠
      .ok ⟨none, none, none, none, none, none, none, none, none, none, none, none, none,
        [], none, none, none, none, none, [], 0, []⟩ :=
  C3_wrong_shape_rejected.1 _ _ [("weight_kg", Json.str "heavy")] "heavy" _ rfl (by simp)
    rfl rfl

/-- C6: for all three document kinds, every top-level field absent from the
recovered JSON object populates the constructed record with its declared
default (`none` for optional scalars, `[]` for sequences, `0` for
`confidence`), and construction on the all-absent (empty) object succeeds
rather than throwing. -/
theorem C6_absent_fields_default :
    (BOLResponse.validate (.obj []) = .ok ⟨none, none, none, none, none, none, none, none,
      none, none, none, none, none, [], none, none, none, none, none, [], 0, []⟩) ∧
    (FreightInvoiceResponse.validate (.obj []) = .ok ⟨none, none, none, none, none, none,
      none, [], [], [], [], none, none, none, none, none, none, 0, []⟩) ∧
    (PackingListResponse.validate (.obj []) = .ok ⟨none, none, none, none, [], [], [],
      none, none, none, none, 0, []⟩) ∧
    (∀ kvs r, BOLResponse.validate (.obj kvs) = .ok r →
      (jGet kvs "bol_number" = none → r.bol_number = none) ∧
      (jGet kvs "booking_number" = none → r.booking_number = none) ∧
      (jGet kvs "shipper" = none → r.shipper = none) ∧
      (jGet kvs "consignee" = none → r.consignee = none) ∧
      (jGet kvs "notify_party" = none → r.notify_party = none) ∧
      (jGet kvs "carrier" = none → r.carrier = none) ∧
      (jGet kvs "vessel_name" = none → r.vessel_name = none) ∧
      (jGet kvs "voyage_number" = none → r.voyage_number = none) ∧
      (jGet kvs "port_of_loading" = none → r.port_of_loading = none) ∧
      (jGet kvs "port_of_discharge" = none → r.port_of_discharge = none) ∧
      (jGet kvs "place_of_delivery" = none → r.place_of_delivery = none) ∧
      (jGet kvs "date_of_issue" = none → r.date_of_issue = none) ∧
      (jGet kvs "shipped_on_board_date" = none → r.shipped_on_board_date = none) ∧
      (jGet kvs "containers" = none → r.containers = []) ∧
      (jGet kvs "commodity_description" = none → r.commodity_description = none) ∧
      (jGet kvs "gross_weight_kg" = none → r.gross_weight_kg = none) ∧
      (jGet kvs "number_of_packages" = none → r.number_of_packages = none) ∧
      (jGet kvs "package_type" = none → r.package_type = none) ∧
      (jGet kvs "freight_terms" = none → r.freight_terms = none) ∧
      (jGet kvs "hs_codes" = none → r.hs_codes = []) ∧
      (jGet kvs "confidence" = none → r.confidence = 0) ∧
      (jGet kvs "warnings" = none → r.warnings = [])) ∧
    (∀ kvs r, FreightInvoiceResponse.validate (.obj kvs) = .ok r →
      (jGet kvs "invoice_number" = none → r.invoice_number = none) ∧
      (jGet kvs "invoice_date" = none → r.invoice_date = none) ∧
      (jGet kvs "due_date" = none → r.due_date = none) ∧
      (jGet kvs "vendor_name" = none → r.vendor_name = none) ∧
      (jGet kvs "vendor_address" = none → r.vendor_address = none) ∧
      (jGet kvs "bill_to_name" = none → r.bill_to_name = none) ∧
      (jGet kvs "bill_to_address" = none → r.bill_to_address = none) ∧
      (jGet kvs "bol_references" = none → r.bol_references = []) ∧
      (jGet kvs "container_references" = none → r.container_references = []) ∧
      (jGet kvs "po_references" = none → r.po_references = []) ∧
      (jGet kvs "line_items" = none → r.line_items = []) ∧
      (jGet kvs "subtotal" = none → r.subtotal = none) ∧
      (jGet kvs "tax" = none → r.tax = none) ∧
      (jGet kvs "total" = none → r.total = none) ∧
      (jGet kvs "currency" = none → r.currency = none) ∧
      (jGet kvs "payment_terms" = none → r.payment_terms = none) ∧
      (jGet kvs "charge_breakdown" = none → r.charge_breakdown = none) ∧
      (jGet kvs "confidence" = none → r.confidence = 0) ∧
      (jGet kvs "warnings" = none → r.warnings = [])) ∧
    (∀ kvs r, PackingListResponse.validate (.obj kvs) = .ok r →
      (jGet kvs "packing_list_number" = none → r.packing_list_number = none) ∧
      (jGet kvs "date" = none → r.date = none) ∧
      (jGet kvs "shipper" = none → r.shipper = none) ∧
      (jGet kvs "consignee" = none → r.consignee = none) ∧
      (jGet kvs "po_references" = none → r.po_references = []) ∧
      (jGet kvs "invoice_references" = none → r.invoice_references = []) ∧
      (jGet kvs "items" = none → r.items = []) ∧
      (jGet kvs "total_packages" = none → r.total_packages = none) ∧
      (jGet kvs "total_gross_weight_kg" = none → r.total_gross_weight_kg = none) ∧
      (jGet kvs "total_net_weight_kg" = none → r.total_net_weight_kg = none) ∧
      (jGet kvs "total_volume_cbm" = none → r.total_volume_cbm = none) ∧
      (jGet kvs "confidence" = none → r.confidence = 0) ∧
      (jGet kvs "warnings" = none → r.warnings = [])) := by
  refine ⟨rfl, rfl, rfl, ?_, ?_, ?_⟩
  · intro kvs r h
    obtain ⟨h1, h2, h3, h4, h5, h6, h7, h8, h9, h10, h11, h12, h13, h14, h15, h16, h17,
      h18, h19, h20, h21, h22⟩ := bol_validate_ok_fields h
    exact ⟨fun hb => absDef h1 rfl hb, fun hb => absDef h2 rfl hb,
      fun hb => absDef h3 rfl hb, fun hb => absDef h4 rfl hb,
      fun hb => absDef h5 rfl hb, fun hb => absDef h6 rfl hb,
      fun hb => absDef h7 rfl hb, fun hb => absDef h8 rfl hb,
      fun hb => absDef h9 rfl hb, fun hb => absDef h10 rfl hb,
      fun hb => absDef h11 rfl hb, fun hb => absDef h12 rfl hb,
      fun hb => absDef h13 rfl hb, fun hb => absDef h14 rfl hb,
      fun hb => absDef h15 rfl hb, fun hb => absDef h16 rfl hb,
      fun hb => absDef h17 rfl hb, fun hb => absDef h18 rfl hb,
      fun hb => absDef h19 rfl hb, fun hb => absDef h20 rfl hb,
      fun hb => absDef h21 rfl hb, fun hb => absDef h22 rfl hb⟩
  · intro kvs r h
    obtain ⟨h1, h2, h3, h4, h5, h6, h7, h8, h9, h10, h11, h12, h13, h14, h15, h16, h17,
      h18, h19⟩ := invoice_validate_ok_fields h
    exact ⟨fun hb => absDef h1 rfl hb, fun hb => absDef h2 rfl hb,
      fun hb => absDef h3 rfl hb, fun hb => absDef h4 rfl hb,
      fun hb => absDef h5 rfl hb, fun hb => absDef h6 rfl hb,
      fun hb => absDef h7 rfl hb, fun hb => absDef h8 rfl hb,
      fun hb => absDef h9 rfl hb, fun hb => absDef h10 rfl hb,
      fun hb => absDef h11 rfl hb, fun hb => absDef h12 rfl hb,
      fun hb => absDef h13 rfl hb, fun hb => absDef h14 rfl hb,
      fun hb => absDef h15 rfl hb, fun hb => absDef h16 rfl hb,
      fun hb => absDef h17 rfl hb, fun hb => absDef h18 rfl hb,
      fun hb => absDef h19 rfl hb⟩
  · intro kvs r h
    obtain ⟨h1, h2, h3, h4, h5, h6, h7, h8, h9, h10, h11, h12, h13⟩ :=
      packing_validate_ok_fields h
    exact ⟨fun hb => absDef h1 rfl hb, fun hb => absDef h2 rfl hb,
      fun hb => absDef h3 rfl hb, fun hb => absDef h4 rfl hb,
      fun hb => absDef h5 rfl hb, fun hb => absDef h6 rfl hb,
      fun hb => absDef h7 rfl hb, fun hb => absDef h8 rfl hb,
      fun hb => absDef h9 rfl hb, fun hb => absDef h10 rfl hb,
      fun hb => absDef h11 rfl hb, fun hb => absDef h12 rfl hb,
      fun hb => absDef h13 rfl hb⟩

/-- Witness for C6 at a concrete object where only `carrier` is present. -/
theorem C6_absent_fields_default_witness :
    BOLResponse.validate (.obj [("carrier", Json.str "MSC")]) = .ok
      ⟨none, none, none, none, none, some "MSC", none, none, none, none, none, none, none,
       [], none, none, none, none, none, [], 0, []⟩ ∧
    (⟨none, none, none, none, none, some "MSC", none, none, none, none, none, none, none,
       [], none, none, none, none, none, [], 0, []⟩ : BOLResponse).bol_number = none := by
  have hv : BOLResponse.validate (.obj [("carrier", Json.str "MSC")]) = .ok
      ⟨none, none, none, none, none, some "MSC", none, none, none, none, none, none, none,
       [], none, none, none, none, none, [], 0, []⟩ := rfl
  exact ⟨hv, (C6_absent_fields_default.2.2.2.1 _ _ hv).1 rfl⟩

/-- C9: a numeric `confidence` outside `[0,1]` is passed through unchanged
by all three validators — no clamping, no rejection — and a payload carrying
only such a `confidence` validates successfully. -/
theorem C9_confidence_passthrough (m : Int) (e : Nat)
    (hout : numVal m e < 0 ∨ 1 < numVal m e) :
    (∀ kvs r, jGet kvs "confidence" = some (.num m e) →
      BOLResponse.validate (.obj kvs) = .ok r → r.confidence = numVal m e) ∧
    (∀ kvs r, jGet kvs "confidence" = some (.num m e) →
      FreightInvoiceResponse.validate (.obj kvs) = .ok r → r.confidence = numVal m e) ∧
    (∀ kvs r, jGet kvs "confidence" = some (.num m e) →
      PackingListResponse.validate (.obj kvs) = .ok r → r.confidence = numVal m e) ∧
    BOLResponse.validate (.obj [("confidence", .num m e)]) =
      .ok ⟨none, none, none, none, none, none, none, none, none, none, none, none, none,
        [], none, none, none, none, none, [], numVal m e, []⟩ := by
  refine ⟨?_, ?_, ?_, rfl⟩
  · intro kvs r hc hok
    obtain ⟨-, -, -, -, -, -, -, -, -, -, -, -, -, -, -, -, -, -, -, -, h21, -⟩ :=
      bol_validate_ok_fields hok
    rw [hc] at h21
    exact (okInj h21).symm
  · intro kvs r hc hok
    obtain ⟨-, -, -, -, -, -, -, -, -, -, -, -, -, -, -, -, -, h18, -⟩ :=
      invoice_validate_ok_fields hok
    rw [hc] at h18
    exact (okInj h18).symm
  · intro kvs r hc hok
    obtain ⟨-, -, -, -, -, -, -, -, -, -, -, h12, -⟩ :=
      packing_validate_ok_fields hok
    rw [hc] at h12
    exact (okInj h12).symm

/-- Witness for C9 at `confidence = 1.5`. -/
theorem C9_confidence_passthrough_witness :
    BOLResponse.validate (.obj [("confidence", .num 15 1)]) =
      .ok ⟨none, none, none, none, none, none, none, none, none, none, none, none, none,
        [], none, none, none, none, none, [], numVal 15 1, []⟩ :=
  (C9_confidence_passthrough 15 1 (Or.inr (by norm_num [numVal]))).2.2.2

/-! ## Rate-limiter lemmas -/

theorem storeGet_storeSet_self (st : RateStore) (k : String) (v : List ℚ) :
    storeGet (storeSet st k v) k = v := by
  induction st with
  | nil => simp only [storeSet, storeGet, List.lookup, beq_self_eq_true, Option.getD]
  | cons kv rest ih =>
    obtain ⟨k', v'⟩ := kv
    by_cases h : k' = k
    · subst h
      simp only [storeSet, beq_self_eq_true, if_true, storeGet, List.lookup, Option.getD]
    · have hbeq : (k' == k) = false := by simpa using h
      have hbeq2 : (k == k') = false := by simpa using (Ne.symm h)
      simp only [storeSet, hbeq, cond_false, Bool.false_eq_true, if_false]
      simp only [storeGet, List.lookup, hbeq2]
      exact ih

theorem check_rate_limit_reject (limit window : Nat) (now : ℚ) (st : RateStore) (key : String)
    (h : limit ≤ ((storeGet st key).filter (fun t => now - t < (window : ℚ))).length) :
    check_rate_limit limit window now st key =
      (.error ⟨429, s!"Rate limit exceeded. Max {limit} requests per {window}s."⟩,
       storeSet st key ((storeGet st key).filter (fun t => now - t < (window : ℚ)))) := by
  simp only [check_rate_limit]
  rw [if_pos h]

theorem check_rate_limit_admit (limit window : Nat) (now : ℚ) (st : RateStore) (key : String)
    (h : ((storeGet st key).filter (fun t => now - t < (window : ℚ))).length < limit) :
    check_rate_limit limit window now st key =
      (.ok (), storeSet st key
        ((storeGet st key).filter (fun t => now - t < (window : ℚ)) ++ [now])) := by
  simp only [check_rate_limit]
  rw [if_neg (Nat.not_le.mpr h)]

theorem runSeq_all_admit (N W : Nat) (key : String) (ts : List ℚ) (st : RateStore)
    (acc : List ℚ) (hacc : storeGet st key = acc)
    (hkeep : ∀ now ∈ ts, ∀ t ∈ acc, now - t < (W : ℚ))
    (hkeep2 : ∀ now ∈ ts, ∀ t ∈ ts, now - t < (W : ℚ))
    (hlen : acc.length + ts.length ≤ N) :
    (runSeq N W key ts st).1 = List.replicate ts.length true ∧
    storeGet (runSeq N W key ts st).2 key = acc ++ ts := by
  induction ts generalizing st acc with
  | nil => simpa [runSeq] using hacc
  | cons t ts' ih =>
    have hlen' : acc.length + ts'.length + 1 ≤ N := by
      simp only [List.length_cons] at hlen
      omega
    have hfil : (storeGet st key).filter (fun u => t - u < (W : ℚ)) = acc := by
      rw [hacc, List.filter_eq_self]
      intro a ha
      simpa using hkeep t (by simp) a ha
    have hcrl := check_rate_limit_admit N W t st key (by rw [hfil]; omega)
    have hacc' : storeGet (storeSet st key (acc ++ [t])) key = acc ++ [t] :=
      storeGet_storeSet_self st key (acc ++ [t])
    have hkeep' : ∀ now ∈ ts', ∀ u ∈ acc ++ [t], now - u < (W : ℚ) := by
      intro now hn u hu
      rcases List.mem_append.mp hu with h | h
      · exact hkeep now (by simp [hn]) u h
      · have he : u = t := by simpa using h
        rw [he]
        exact hkeep2 now (by simp [hn]) t (by simp)
    have hkeep2' : ∀ now ∈ ts', ∀ u ∈ ts', now - u < (W : ℚ) := by
      intro now hn u hu
      exact hkeep2 now (by simp [hn]) u (by simp [hu])
    obtain ⟨ha, hb⟩ := ih (storeSet st key (acc ++ [t])) (acc ++ [t]) hacc'
      hkeep' hkeep2' (by simp [List.length_append]; omega)
    constructor
    · simp only [runSeq]
      rw [hcrl]
      simp only [hfil] at ha ⊢
      simp [admitted, ha, List.replicate_succ]
    · simp only [runSeq]
      rw [hcrl]
      simp only [hfil] at hb ⊢
      simpa [List.append_assoc] using hb

/-! ## PDF extraction refinement -/

theorem pdf_foldl_rows (tbl : List (List (Option String))) (acc : List String) :
    tbl.foldl (fun acc3 row => acc3 ++ [rowText row]) acc = acc ++ tbl.map rowText := by
  induction tbl generalizing acc with
  | nil => simp
  | cons r rs ih => simp [List.foldl_cons, ih]

theorem pdf_foldl_tables (tables : List (List (List (Option String)))) (acc : List String) :
    tables.foldl
      (fun acc2 tbl => tbl.foldl (fun acc3 row => acc3 ++ [rowText row]) acc2) acc =
      acc ++ (tables.map (fun tbl => tbl.map rowText)).flatten := by
  induction tables generalizing acc with
  | nil => simp
  | cons t ts ih =>
    simp only [List.foldl_cons]
    rw [ih, pdf_foldl_rows]
    simp [List.append_assoc]

theorem pdfPieces_aux (ps : List PDFPage) (acc : List String) :
    ps.foldl
      (fun acc page =>
        let acc1 :=
          match page.text with
          | some t => if t = "" then acc else acc ++ [t]
          | none => acc
        page.tables.foldl
          (fun acc2 tbl => tbl.foldl (fun acc3 row => acc3 ++ [rowText row]) acc2)
          acc1)
      acc = acc ++ (ps.map pageLines).flatten := by
  induction ps generalizing acc with
  | nil => simp
  | cons p ps ih =>
    simp only [List.foldl_cons]
    rw [ih]
    cases htext : p.text with
    | none => simp [pageLines, htext, pdf_foldl_tables, List.append_assoc]
    | some t =>
      by_cases ht : t = ""
      · simp [pageLines, htext, ht, pdf_foldl_tables, List.append_assoc]
      · simp [pageLines, htext, ht, pdf_foldl_tables, List.append_assoc]

/-- The pages list the PDF loop accumulates equals the specification
formula: per page, the page text then each table row flattened. -/
theorem pdfPieces_eq_spec (doc : PDFDoc) :
    pdfPieces doc = (doc.pages.map pageLines).flatten := by
  simpa [pdfPieces] using pdfPieces_aux doc.pages []

theorem extractPdfText_eq_spec (doc : PDFDoc) : extractPdfText doc = pdfTextSpec doc := by
  simp [extractPdfText, pdfTextSpec, pdfPieces_eq_spec]

/-- C4: exactly `N` calls for one key within one window all succeed; the
`(N+1)`-th call within the same window is rejected with the 429 error and
consumes no quota (the store still holds exactly the `N` admitted
timestamps); after the window has elapsed a new call succeeds again and the
store holds just its timestamp. -/
theorem C4_rate_limit_window (N W : Nat) (key : String) (ts : List ℚ)
    (tN t2 lo hi : ℚ) (hNpos : 0 < N) (hlen : ts.length = N)
    (hmem : ∀ t ∈ ts, lo ≤ t ∧ t ≤ hi) (htN : lo ≤ tN ∧ tN ≤ hi)
    (hspan : hi - lo < (W : ℚ)) (ht2 : hi + (W : ℚ) ≤ t2) :
    (runSeq N W key ts []).1 = List.replicate N true ∧
    (check_rate_limit N W tN (runSeq N W key ts []).2 key).1 =
      .error ⟨429, s!"Rate limit exceeded. Max {N} requests per {W}s."⟩ ∧
    storeGet (check_rate_limit N W tN (runSeq N W key ts []).2 key).2 key = ts ∧
    (check_rate_limit N W t2
      (check_rate_limit N W tN (runSeq N W key ts []).2 key).2 key).1 = .ok () ∧
    storeGet (check_rate_limit N W t2
      (check_rate_limit N W tN (runSeq N W key ts []).2 key).2 key).2 key = [t2] := by
  have hkeep2 : ∀ a ∈ ts, ∀ b ∈ ts, a - b < (W : ℚ) := by
    intro a ha b hb
    have h1 := hmem a ha
    have h2 := hmem b hb
    linarith [h1.1, h1.2, h2.1, h2.2]
  obtain ⟨hflags, hst1⟩ := runSeq_all_admit N W key ts [] [] rfl (by simp) hkeep2
    (by simp [hlen])
  simp only [List.nil_append] at hst1
  have hfilN : (storeGet (runSeq N W key ts []).2 key).filter
      (fun u => tN - u < (W : ℚ)) = ts := by
    rw [hst1, List.filter_eq_self]
    intro a ha
    have h1 := hmem a ha
    simp only [decide_eq_true_eq]
    linarith [h1.1, h1.2, htN.1, htN.2]
  have hrej := check_rate_limit_reject N W tN (runSeq N W key ts []).2 key
    (by rw [hfilN]; omega)
  have hb2 : storeGet (check_rate_limit N W tN (runSeq N W key ts []).2 key).2 key = ts := by
    rw [hrej]
    rw [storeGet_storeSet_self, hfilN]
  have hfil2 : (storeGet (check_rate_limit N W tN (runSeq N W key ts []).2 key).2 key).filter
      (fun u => t2 - u < (W : ℚ)) = [] := by
    rw [hb2, List.filter_eq_nil_iff]
    intro a ha
    have h1 := hmem a ha
    simp only [decide_eq_true_eq, not_lt]
    linarith [h1.1, h1.2]
  have hadm := check_rate_limit_admit N W t2
    (check_rate_limit N W tN (runSeq N W key ts []).2 key).2 key
    (by rw [hfil2]; simpa using hNpos)
  refine ⟨by rw [hflags, hlen], ?_, hb2, ?_, ?_⟩
  · rw [hrej]
  · rw [hadm]
  · rw [hadm]
    rw [storeGet_storeSet_self, hfil2]
    simp

/-- Witness for C4 at ceiling 2, window 60s, calls at times 0, 1, then 2
(rejected) and 100 (admitted again). -/
theorem C4_rate_limit_window_witness :
    (runSeq 2 60 "k" [(0 : ℚ), 1] []).1 = List.replicate 2 true ∧
    (check_rate_limit 2 60 2 (runSeq 2 60 "k" [(0 : ℚ), 1] []).2 "k").1 =
      .error ⟨429, s!"Rate limit exceeded. Max {2} requests per {60}s."⟩ ∧
    storeGet (check_rate_limit 2 60 2 (runSeq 2 60 "k" [(0 : ℚ), 1] []).2 "k").2 "k" =
      [(0 : ℚ), 1] ∧
    (check_rate_limit 2 60 100
      (check_rate_limit 2 60 2 (runSeq 2 60 "k" [(0 : ℚ), 1] []).2 "k").2 "k").1 = .ok () ∧
    storeGet (check_rate_limit 2 60 100
      (check_rate_limit 2 60 2 (runSeq 2 60 "k" [(0 : ℚ), 1] []).2 "k").2 "k").2 "k" =
      [(100 : ℚ)] :=
  C4_rate_limit_window 2 60 "k" [0, 1] 2 100 0 2 (by norm_num) rfl
    (by
      intro t ht
      simp only [List.mem_cons, List.mem_singleton, List.not_mem_nil, or_false] at ht
      rcases ht with rfl | rfl <;> norm_num)
    (by norm_num) (by norm_num) (by norm_num)

/-- C5 counterexample: the allow-list `SUPPORTED_MIME_TYPES` is declared but
never consulted.  `image/tiff` is outside the allow-list yet is sent to the
vision branch (coerced to `image/png`) instead of failing with 415, and
`text/html` is outside the allow-list yet is decoded by the `text/` prefix
branch. -/
theorem C5_allowlist_not_enforced :
    ("image/tiff" ∉ SUPPORTED_MIME_TYPES ∧
      extract_text_from_upload pdfParseUnused [0] (some "image/tiff") none =
        .visionRequest "image/png" [0]) ∧
    ("text/html" ∉ SUPPORTED_MIME_TYPES ∧
      extract_text_from_upload pdfParseUnused [72, 105] (some "text/html") none =
        .text "Hi") := by
  exact ⟨⟨by decide, rfl⟩, ⟨by decide, rfl⟩⟩

/-- C5 (amended): dispatch is by content-type prefix and filename suffix,
not by the allow-list.  Within the size ceiling, a content type that does
not start with `text/` or `image/`, is not `application/pdf`, and whose
lower-cased filename ends in neither `.txt` nor `.pdf`, fails with the 415
error naming
the allowed set; `text/*` types are decoded and `image/*` types go to the
vision branch (media type coerced to `image/png` outside the image
allow-list). -/
theorem C5_unsupported_type_415 (pdfParse : List UInt8 → Except String PDFDoc)
    (content : List UInt8) (ct : String) (fn : Option String)
    (hsize : content.length ≤ MAX_FILE_SIZE)
    (h1 : "text/".data.isPrefixOf ct.data = false)
    (h2 : ".txt".data.isSuffixOf (lowerStr (fn.getD "")).data = false)
    (h3 : (ct == "application/pdf") = false)
    (h4 : ".pdf".data.isSuffixOf (lowerStr (fn.getD "")).data = false)
    (h5 : "image/".data.isPrefixOf ct.data = false) :
    extract_text_from_upload pdfParse content (some ct) fn =
      .httpError 415 (s!"Unsupported file type: {ct}. " ++
        "Supported: PDF, PNG, JPEG, WebP, GIF, plain text.") := by
  simp only [extract_text_from_upload, Option.getD_some]
  rw [if_neg (Nat.not_lt.mpr hsize)]
  simp [h1, h2, h3, h4, h5]

/-- Witness for C5 at `application/zip`. -/
theorem C5_unsupported_type_415_witness :
    extract_text_from_upload pdfParseUnused [0] (some "application/zip") none =
      .httpError 415 ("Unsupported file type: application/zip. " ++
        "Supported: PDF, PNG, JPEG, WebP, GIF, plain text.") := by
  have h := C5_unsupported_type_415 pdfParseUnused [0] "application/zip" none
    (by norm_num [MAX_FILE_SIZE]) rfl rfl rfl rfl rfl
  simpa using h

/-- C7: for a PDF within the size ceiling that `pdfplumber` opens, the
extraction result is exactly the spec formula `pdfTextSpec` — per page, the
page text then each table row as one pipe-delimited line, newline-joined —
and when that text is empty or whitespace-only the branch fails with the
image-only 422 error instead of returning empty text. -/
theorem C7_pdf_extraction (pdfParse : List UInt8 → Except String PDFDoc)
    (content : List UInt8) (doc : PDFDoc)
    (hsize : content.length ≤ MAX_FILE_SIZE)
    (hparse : pdfParse content = .ok doc) :
    extract_text_from_upload pdfParse content (some "application/pdf") none =
      (if pyStrip (pdfTextSpec doc).data = [] then
        .httpError 422 ("Could not extract text from PDF. The file may be image-only. " ++
          "Try using an OCR tool first, then submit the text.")
      else .text (pdfTextSpec doc)) := by
  simp only [extract_text_from_upload, Option.getD_some, Option.getD_none]
  rw [if_neg (Nat.not_lt.mpr hsize), if_neg (by decide), if_pos (by decide), hparse]
  simp [extractPdfText_eq_spec]

/-- Witness for C7 on a one-page document with text and one table row. -/
theorem C7_pdf_extraction_witness :
    extract_text_from_upload
      (fun _ => .ok ⟨[⟨some "Page one", [[[some "a", none, some "b"]]]⟩]⟩)
      [37] (some "application/pdf") none =
      (if pyStrip (pdfTextSpec ⟨[⟨some "Page one", [[[some "a", none, some "b"]]]⟩]⟩).data
          = [] then
        .httpError 422 ("Could not extract text from PDF. The file may be image-only. " ++
          "Try using an OCR tool first, then submit the text.")
      else .text (pdfTextSpec ⟨[⟨some "Page one", [[[some "a", none, some "b"]]]⟩]⟩)) :=
  C7_pdf_extraction (fun _ => .ok ⟨[⟨some "Page one", [[[some "a", none, some "b"]]]⟩]⟩)
    [37] ⟨[⟨some "Page one", [[[some "a", none, some "b"]]]⟩]⟩
    (by norm_num [MAX_FILE_SIZE]) rfl

/-- C8: any payload over 10 MiB fails with 413, whatever the declared
content type, filename, or `pdfplumber` behaviour — the result does not
depend on the parsing oracle, so no parse or decode is reached. -/
theorem C8_oversize_413 (pdfParse : List UInt8 → Except String PDFDoc)
    (content : List UInt8) (ct fn : Option String)
    (h : MAX_FILE_SIZE < content.length) :
    extract_text_from_upload pdfParse content ct fn =
      .httpError 413 "File too large. Max 10 MB." := by
  simp only [extract_text_from_upload]
  rw [if_pos h]

/-- Witness for C8 on a payload one byte over the ceiling. -/
theorem C8_oversize_413_witness :
    extract_text_from_upload pdfParseUnused (List.replicate (10 * 1024 * 1024 + 1) 0)
      (some "application/pdf") (some "big.pdf") =
      .httpError 413 "File too large. Max 10 MB." :=
  C8_oversize_413 pdfParseUnused _ _ _
    (by rw [List.length_replicate]; norm_num [MAX_FILE_SIZE])

/-- C10: with an empty configured proxy secret, the proxy branch never
authenticates (`.ok "rapidapi"` is unreachable), the empty API key is never
in the configured allow-set, an empty `X-API-Key` is rejected with 401, and
a request passes only by presenting a key of the allow-set. -/
theorem C10_empty_secret_auth (env : Option String) (proxyHeader : Option String)
    (xApiKey : String) :
    (∀ r, verify_api_key "" (internalApiKeys env) proxyHeader xApiKey = .ok r →
      r = "direct") ∧
    "" ∉ internalApiKeys env ∧
    verify_api_key "" (internalApiKeys env) proxyHeader "" =
      .error ⟨401, "Invalid API key"⟩ ∧
    (xApiKey ∉ internalApiKeys env →
      verify_api_key "" (internalApiKeys env) proxyHeader xApiKey =
        .error ⟨401, "Invalid API key"⟩) ∧
    (xApiKey ∈ internalApiKeys env →
      verify_api_key "" (internalApiKeys env) proxyHeader xApiKey = .ok "direct") := by
  have hne : ∀ p : Option String, ¬((("" : String) ≠ "") ∧ p = some "") := by
    intro p h
    exact h.1 rfl
  have hempty : ("" : String) ∉ internalApiKeys env := by
    intro h
    simp [internalApiKeys, List.mem_filter] at h
  refine ⟨?_, hempty, ?_, ?_, ?_⟩
  · intro r h
    simp only [verify_api_key, if_neg (hne proxyHeader)] at h
    by_cases hm : xApiKey ∈ internalApiKeys env
    · rw [if_pos hm] at h
      exact (okInj h).symm
    · rw [if_neg hm] at h
      exact absurd h (by simp)
  · simp only [verify_api_key, if_neg (hne proxyHeader), if_neg hempty]
  · intro hnm
    simp only [verify_api_key, if_neg (hne proxyHeader), if_neg hnm]
  · intro hm
    simp only [verify_api_key, if_neg (hne proxyHeader), if_pos hm]

/-- Witness for C10: with no configured keys variable (default allow-set),
a wrong key and an empty proxy-secret header are rejected with 401. -/
theorem C10_empty_secret_auth_witness :
    verify_api_key "" (internalApiKeys none) (some "") "bogus" =
      .error ⟨401, "Invalid API key"⟩ :=
  (C10_empty_secret_auth none (some "") "bogus").2.2.2.1 (by decide)

end FreightParse
